import Mathlib

/-!
# Verification of the permagen CLI (`src/index.js`)

A shallow embedding of the permagen command-line tool: its configuration
manager (`getFirebaseConfig`), its uploader (`uploadFile`), its path
formatting (`formatFilePath`) and its CLI dispatch (`main`), together with
proofs about the behaviour the specification describes.

JavaScript strings are modelled as `String`/`List Char`; JSON values
produced by `JSON.parse` as the inductive `JVal`; the interactive prompts,
console outputs, file writes and network calls as explicit traces; the
answers the user gives, the persisted file contents and the outcome of the
network as explicit inputs.  `process.exit(n)` and thrown JS exceptions are
distinct outcome constructors.
-/

namespace Permagen

/-- The ASCII whitespace characters: models the JS regex class `\s` and the
characters stripped by `String.prototype.trim` (the Unicode space
characters beyond ASCII are not used by any input considered here). -/
def isJsWsChar (c : Char) : Bool :=
  c = ' ' || c = '\t' || c = '\n' || c = '\r' || c = '\x0b' || c = '\x0c'

/-- The JS regex class `\w`, i.e. `[A-Za-z0-9_]`. -/
def isWordChar (c : Char) : Bool :=
  ('a' ≤ c && c ≤ 'z') || ('A' ≤ c && c ≤ 'Z') || ('0' ≤ c && c ≤ '9') || c = '_'

/-- JS `String.prototype.trim` on a character list: drop whitespace from
both ends. -/
def trimList (l : List Char) : List Char :=
  ((l.dropWhile isJsWsChar).reverse.dropWhile isJsWsChar).reverse

/-- JS `String.prototype.trim`. -/
def jsTrim (s : String) : String :=
  String.mk (trimList s.data)

/-- JS `s.replace(pat, '')` for a regex that is a literal string `pat`:
remove the leftmost occurrence of `pat` (the string is unchanged when
`pat` does not occur). -/
def replaceFirstAux (pat : List Char) : List Char → List Char
  | [] => []
  | c :: rest =>
    if pat.isPrefixOf (c :: rest) then (c :: rest).drop pat.length
    else c :: replaceFirstAux pat rest

/-- JS `s.replace(/;$/, '')`: drop a final `';'` when the string ends with
one (without the `m` flag, `$` anchors only at the very end). -/
def stripSemiList (l : List Char) : List Char :=
  match l.reverse with
  | ';' :: rest => rest.reverse
  | _ => l

/-- The scanner behind JS `s.replace(/(\w+):\s/g, '"$1": ')` (line 65 of
`src/index.js`).  `run` is the maximal run of word characters read so far
(the candidate `\w+` capture); the `Bool` records that the run has just
been followed by `':'`.  A nonempty run followed by `':'` and one
whitespace character is a match and is emitted quoted, as `"run": `,
with scanning resuming after the consumed whitespace; on any failure the
run (and the `':'` when one was read) is emitted unchanged and scanning
resumes at the first character not part of it — a match can never start
inside a failed run, because the pattern would still meet the same two
non-matching characters, so this models the JS left-to-right global
replace exactly. -/
def qkAux : List Char → Bool → List Char → List Char
  | run, false, [] => run
  | run, false, c :: rest =>
    if isWordChar c then qkAux (run ++ [c]) false rest
    else if c = ':' && run ≠ [] then qkAux run true rest
    else run ++ c :: qkAux [] false rest
  | run, true, [] => run ++ [':']
  | run, true, c :: rest =>
    if isJsWsChar c then '"' :: run ++ '"' :: ':' :: ' ' :: qkAux [] false rest
    else if isWordChar c then run ++ ':' :: qkAux [c] false rest
    else run ++ ':' :: c :: qkAux [] false rest

/-- JS `s.replace(/(\w+):\s/g, '"$1": ')`. -/
def quoteKeys (l : List Char) : List Char := qkAux [] false l

/-- The pasted-text-to-JSON transformation, lines 62–66 of `src/index.js`:
```
configString.replace(/const firebaseConfig =/, '')
            .replace(/;$/, '')
            .replace(/(\w+):\s/g, '"$1": ')
            .trim()
```
-/
def transformConfigText (s : String) : String :=
  String.mk (trimList (quoteKeys (stripSemiList
    (replaceFirstAux "const firebaseConfig =".data s.data))))

/-! ## JSON values and JS object semantics -/

/-- A JSON value as produced by `JSON.parse`.  Numbers are modelled as
integers (every number appearing in a Firebase configuration is an
integer; nothing in the claims depends on fractional values). -/
inductive JVal where
  | str (s : String)
  | num (n : Int)
  | bool (b : Bool)
  | null
  | arr (elems : List JVal)
  | obj (fields : List (String × JVal))

/-- JS truthiness of a `JVal` (`NaN` cannot arise from `JSON.parse`). -/
def jsTruthy : JVal → Bool
  | .str s => s ≠ ""
  | .num n => n ≠ 0
  | .bool b => b
  | .null => false
  | .arr _ => true
  | .obj _ => true

/-- Lookup in the field list of a parsed object.  `JSON.parse` keeps the
last of duplicate keys, hence the reversed search. -/
def objGet (fields : List (String × JVal)) (k : String) : Option JVal :=
  (fields.reverse.find? (fun p => p.1 == k)).map (·.2)

/-- JS property access `v[k]`: `none` models `undefined`; accessing a
property of `null` throws a `TypeError` (the `.error` case); property
access on strings, numbers, booleans and arrays yields `undefined` for
the configuration keys considered here. -/
def jsGetField : JVal → String → Except Unit (Option JVal)
  | .null, _ => .error ()
  | .obj f, k => .ok (objGet f k)
  | _, _ => .ok none

/-- JS property assignment `v[k] = x` in strict (module) mode: updates or
appends the field on an object, throws a `TypeError` on `null` and on
primitives. -/
def jsSetField : JVal → String → JVal → Except Unit JVal
  | .obj f, k, v =>
    .ok (.obj (if f.any (fun p => p.1 == k)
      then f.map (fun p => if p.1 == k then (k, v) else p)
      else f ++ [(k, v)]))
  | _, _, _ => .error ()

/-- The fields produced by an object spread `{...v}`: an object's fields;
a string's or array's indexed elements; nothing for the other
primitives. -/
def spreadFields : JVal → List (String × JVal)
  | .obj f => f
  | .str s => (s.data.enum.map (fun p => (Nat.repr p.1, JVal.str (String.mk [p.2]))))
  | .arr es => (es.enum.map (fun p => (Nat.repr p.1, p.2)))
  | _ => []

/-- The six required configuration keys, in the order the code checks
them (line 19 of `src/index.js`). -/
def requiredKeys : List String :=
  ["apiKey", "authDomain", "projectId", "storageBucket", "messagingSenderId", "appId"]

/-- One step of the `requiredKeys.every` predicate (lines 23–26): the JS
expression `value && value.trim()`.  `undefined` and falsy values give
`false`; a truthy string is good iff its trim is nonempty; calling
`.trim()` on a truthy non-string throws a `TypeError` (the `.error`
case). -/
def checkValue : Option JVal → Except Unit Bool
  | none => .ok false
  | some v =>
    if jsTruthy v then
      match v with
      | .str s => .ok (jsTrim s ≠ "")
      | _ => .error ()
    else .ok false

/-- `requiredKeys.every(key => { const value = configFileJSON[key];
return value && value.trim(); })`, with JS short-circuiting and exception
propagation. -/
def checkKeysAux (cfg : JVal) : List String → Except Unit Bool
  | [] => .ok true
  | k :: ks =>
    match jsGetField cfg k with
    | .error e => .error e
    | .ok v =>
      match checkValue v with
      | .error e => .error e
      | .ok b => if b then checkKeysAux cfg ks else .ok false

/-- The body of the `try` block, lines 19–26 of `src/index.js`: computes
`configExistsAndIsValid`.  `file` is the persisted configuration file
(`none` when `fs.existsSync` is false), `parse` is `JSON.parse`
(`none` models a thrown `SyntaxError`, which the surrounding `catch`
sees as the `.error` case here). -/
def validityCheck (parse : String → Option JVal) (file : Option String) :
    Except Unit Bool :=
  match file with
  | none => .ok false
  | some content =>
    if content = "" then .ok false
    else
      match parse content with
      | none => .error ()
      | some cfg => checkKeysAux cfg requiredKeys

/-! ## The configuration manager (`getFirebaseConfig`, lines 14–78) -/

/-- The interactive prompts the tool can issue, in source order:
the "edit existing configuration?" confirmation (line 36), the setup
instructions confirmation (line 47), the pasted-configuration text prompt
(line 50), the file-path text prompt (line 129) and the auto-copy
confirmation (line 149). -/
inductive PromptEv where
  | editConfirm
  | setupReady
  | pasteConfig
  | filePathAsk
  | autoCopyAsk
deriving DecidableEq, Repr

/-- How a call to `getFirebaseConfig` ends: a returned configuration
value, `process.exit(code)`, or a thrown JS exception. -/
inductive GFCRes where
  | returned (config : JVal)
  | exited (code : Nat)
  | threw (msg : String)

/-- The observable outcome of `getFirebaseConfig`: its result, the
prompts issued, the console messages printed (`p.intro`/`p.outro`), and
the value written to `~/.permagenConfig.json` when a write happened. -/
structure GFCOut where
  res : GFCRes
  prompts : List PromptEv
  outputs : List String
  written : Option JVal

/-- The `p.intro` header printed at line 46. -/
def configIntroMsg : String :=
  "---------------------Firebase Configuration---------------------"

/-- The `p.outro` printed at line 29. -/
def invalidConfigMsg : String :=
  "Invalid Firebase configuration. Please run npx permagen --config."

/-- The `p.outro` printed at line 72. -/
def invalidFormatMsg : String := "Invalid format. Please try again."

/-- The `p.outro` printed at line 38. -/
def usingExistingMsg : String := "Using existing Firebase configuration."

/-- The message of the `ReferenceError` thrown at line 39: the `const
configFileJSON` of line 22 is scoped to the `try` block of lines 18–27
and is not in scope at line 39. -/
def configFileJSONRefError : String :=
  "ReferenceError: configFileJSON is not defined"

/-- Lines 46–77 of `src/index.js`: the interactive setup.  `prompts0` and
`outs0` are the prompts and outputs already produced by the surrounding
code.  `ready` is the user's answer to the instructions confirmation,
`pasted` the (validation-accepted) text of the paste prompt. -/
def setupPart (parse : String → Option JVal) (ready : Bool) (pasted : String)
    (prompts0 : List PromptEv) (outs0 : List String) : GFCOut :=
  let outs1 := outs0 ++ [configIntroMsg]
  let prompts1 := prompts0 ++ [.setupReady]
  if !ready then
    { res := .exited 0, prompts := prompts1, outputs := outs1, written := none }
  else
    let prompts2 := prompts1 ++ [.pasteConfig]
    match parse (transformConfigText pasted) with
    | none =>
      { res := .exited 1, prompts := prompts2,
        outputs := outs1 ++ [invalidFormatMsg], written := none }
    | some config =>
      let merged := JVal.obj (spreadFields config ++ [("autoCopy", .bool false)])
      { res := .returned merged, prompts := prompts2, outputs := outs1,
        written := some merged }

/-- Lines 14–78 of `src/index.js` (`resolveConfiguration` in the spec).

Inputs: `parse` is `JSON.parse`; `file` the persisted configuration file
content (`none` when absent); `runWithConfigFlag` the `forceEdit`
argument; `shouldEditConfig`, `readyToProceed` the user's confirmation
answers; `pasted` the pasted configuration text.

When the user declines the edit confirmation at line 37, line 39
evaluates the identifier `configFileJSON`, which is block-scoped to the
`try` of lines 18–27, so the call throws a `ReferenceError` (after
printing the outro of line 38). -/
def getFirebaseConfig (parse : String → Option JVal) (file : Option String)
    (runWithConfigFlag : Bool) (shouldEditConfig readyToProceed : Bool)
    (pasted : String) : GFCOut :=
  match validityCheck parse file with
  | .error _ =>
    if !runWithConfigFlag then
      { res := .exited 1, prompts := [], outputs := [invalidConfigMsg],
        written := none }
    else
      -- the catch swallowed the exception; `configExistsAndIsValid` is false,
      -- so the confirmation of line 36 is skipped and setup starts
      setupPart parse readyToProceed pasted [] []
  | .ok valid =>
    if runWithConfigFlag then
      if valid then
        if !shouldEditConfig then
          { res := .threw configFileJSONRefError, prompts := [.editConfirm],
            outputs := [usingExistingMsg], written := none }
        else
          setupPart parse readyToProceed pasted [.editConfirm] []
      else
        setupPart parse readyToProceed pasted [] []
    else
      if valid then
        -- line 43: `return JSON.parse(configFileRead)`
        match file with
        | some content =>
          match parse content with
          | some cfg =>
            { res := .returned cfg, prompts := [], outputs := [], written := none }
          | none =>
            { res := .threw "SyntaxError", prompts := [], outputs := [],
              written := none }
        | none =>
          -- `JSON.parse(null)` parses the string "null"; unreachable, since
          -- validity requires the file to exist
          { res := .returned .null, prompts := [], outputs := [], written := none }
      else
        setupPart parse readyToProceed pasted [] []

/-! ## The uploader (`uploadFile`, lines 81–101) -/

/-- Little-endian decimal digit characters of `n`; the first argument is
fuel (structural recursion; `fuel ≥ n` is always enough because `n`
shrinks at least as fast as the fuel). -/
def natDigitsAux : Nat → Nat → List Char
  | 0, _ => []
  | fuel + 1, n =>
    if n = 0 then [] else Nat.digitChar (n % 10) :: natDigitsAux fuel (n / 10)

/-- The decimal string of a natural number: models the JS template-string
conversion `` `${timestamp}` `` of an integer `Number` (no sign, no
leading zeros, `"0"` for zero). -/
def natDecToString (n : Nat) : String :=
  if n = 0 then "0" else String.mk (natDigitsAux n n).reverse

/-- JS `filePath.replace(/^['"]|['"]$/g, '')` (line 82): remove one
leading and one trailing quote character. -/
def stripOuterQuotes (s : String) : String :=
  let l := match s.data with
    | c :: rest => if c = '\'' || c = '"' then rest else s.data
    | [] => []
  let l2 := match l.reverse with
    | c :: rest => if c = '\'' || c = '"' then rest.reverse else l
    | [] => []
  String.mk l2

/-- Node `path.posix.basename(p)`: strip trailing separators, then take
everything after the last separator. -/
def posixBasename (p : String) : String :=
  String.mk (((p.data.reverse.dropWhile (· = '/')).takeWhile (· ≠ '/')).reverse)

/-- Node `path.posix.extname` applied to a bare file name (the code only
applies it to a `path.basename` result): the suffix starting at the last
`'.'`, except that a name without a dot, a name whose only dot is its
first character (a dotfile), and the name `".."` have no extension. -/
def posixExtname (s : String) : String :=
  if s = ".." then ""
  else
    let revAfter := s.data.reverse.takeWhile (· ≠ '.')
    if revAfter.length = s.data.length then ""
    else if s.data.length - revAfter.length - 1 = 0 then ""
    else String.mk (s.data.drop (s.data.length - revAfter.length - 1))

/-- Node `path.posix.basename(name, ext)` for a bare `name`: strip the
suffix `ext` when `name` ends with it and is longer than it. -/
def basenameDropExt (name ext : String) : String :=
  if ext ≠ "" && name ≠ ext && ext.data.reverse.isPrefixOf name.data.reverse then
    String.mk (name.data.take (name.data.length - ext.data.length))
  else name

/-- The destination object name computed at lines 82–85:
`` `${path.basename(fileName, path.extname(fileName))}_${timestamp}${path.extname(fileName)}` ``
with `fileName = path.basename(filePath)` after quote stripping. -/
def destName (filePath : String) (timestamp : Nat) : String :=
  basenameDropExt (posixBasename (stripOuterQuotes filePath))
      (posixExtname (posixBasename (stripOuterQuotes filePath)))
    ++ "_" ++ natDecToString timestamp
    ++ posixExtname (posixBasename (stripOuterQuotes filePath))

/-- How `uploadFile` ends: a resolved download URL, or `process.exit`. -/
inductive UpRes where
  | url (u : String)
  | exited (code : Nat)

/-- Observable outcome of `uploadFile`: result, console messages, and
the object names for which network calls (`uploadBytes` /
`getDownloadURL`) were attempted. -/
structure UpOut where
  res : UpRes
  outputs : List String
  uploads : List String

/-- The spinner-stop failure message of line 97. -/
def uploadFailedMsg : String :=
  "Failed to upload file. Please ensure your Firebase Storage bucket is correctly configured by running npx permagen --config."

/-- The spinner-stop success message of line 94. -/
def uploadDoneMsg : String := "File uploaded successfully!"

/-- Lines 81–101 of `src/index.js`.  `net` is the combined outcome of the
two awaited network calls: `.ok url` when `uploadBytes` and
`getDownloadURL` succeed, `.error e` when either throws (the `catch`
prints the failure message, logs the error and exits 1). -/
def uploadFile (filePath : String) (timestamp : Nat)
    (net : Except String String) : UpOut :=
  let name := destName filePath timestamp
  match net with
  | .ok u => { res := .url u, outputs := [uploadDoneMsg], uploads := [name] }
  | .error e =>
    { res := .exited 1, outputs := [uploadFailedMsg, e], uploads := [name] }

/-! ## Path formatting (`formatFilePath`, lines 103–118) -/

/-- JS `inputPath.replace(/\\ /g, ' ')`: every backslash-space pair
becomes a space (left to right, non-overlapping). -/
def unescapeSpaces : List Char → List Char
  | '\\' :: ' ' :: rest => ' ' :: unescapeSpaces rest
  | c :: rest => c :: unescapeSpaces rest
  | [] => []

/-- Node `path.normalize`/`path.resolve` segment processing over an
absolute posix path: empty and `"."` segments vanish, `".."` pops, and
the result carries no trailing separator (the tool always passes the
result of joining with the absolute working directory, and nothing in
the claims depends on the fine structure of this resolution). -/
def posixResolveNormalize (p : String) : String :=
  let folded := (p.splitOn "/").foldl
    (fun acc s =>
      if s = "" || s = "." then acc
      else if s = ".." then acc.dropLast
      else acc ++ [s]) []
  "/" ++ String.intercalate "/" folded

/-- Lines 103–118 of `src/index.js`: trim, strip one pair of matching
surrounding quotes (and trim again), unescape `\ `, make the path
absolute against the working directory `cwd`, and normalize.  The
`Buffer.from(...).toString()` round trip of line 117 is the identity on
the string content. -/
def formatFilePath (inputPath : String) (cwd : String) : String :=
  let t := jsTrim inputPath
  let t2 :=
    if (t.data.head? = some '"' && t.data.getLast? = some '"')
        || (t.data.head? = some '\'' && t.data.getLast? = some '\'') then
      jsTrim (String.mk (t.data.drop 1).dropLast)
    else t
  let t3 := String.mk (unescapeSpaces t2.data)
  if t3.data.head? = some '/' then posixResolveNormalize t3
  else posixResolveNormalize (cwd ++ "/" ++ t3)

/-! ## CLI dispatch (`main`, lines 120–180) -/

/-- The five terminal dispatch states of the spec's state machine
(section 4.3), one per `if`/`else if` branch of lines 123–174. -/
inductive Branch where
  | noArgs
  | configFlag
  | filePathArg
  | invalidPath
  | invalidCommand
deriving DecidableEq, Repr

/-- How the body of `main`'s `try` (lines 122–174) ends: normally, via
`process.exit(code)`, or with a thrown, not-yet-caught JS exception. -/
inductive Flow where
  | done
  | exited (code : Nat)
  | threw (msg : String)
deriving Repr

/-- Observable outcome of one invocation: final control flow, console
outputs, prompts issued, object names with attempted network calls,
values written to the configuration file, and the dispatch branch
taken. -/
structure MainOut where
  flow : Flow
  outputs : List String
  prompts : List PromptEv
  uploads : List String
  writes : List JVal
  branch : Branch

/-- Everything one invocation of the tool reads from its environment:
the argument vector, the working directory, the file-existence
predicate, `JSON.parse`, the persisted configuration file, the user's
prompt answers, the upload timestamp, the network outcome and whether
the clipboard write succeeds. -/
structure World where
  args : List String
  cwd : String
  fsExists : String → Bool
  parse : String → Option JVal
  configFile : Option String
  shouldEditConfig : Bool
  readyToProceed : Bool
  pasted : String
  filePathInput : String
  autoCopyAnswer : Bool
  timestamp : Nat
  uploadNet : Except String String
  clipboardOk : Bool

/-- The welcome banner of line 124 (colour formatting elided). -/
def welcomeMsg : String :=
  "Welcome! Permagen generates permalinks for files by storing them in your configured Firebase Storage bucket"

/-- The `p.outro` of lines 134 and 171. -/
def invalidPathMsg : String := "Invalid file path."

/-- The `p.outro` of line 173. -/
def invalidCommandMsg : String :=
  "Invalid command. Please run the command without any arguments for the interactive setup or provide a valid file path."

/-- The `p.outro` of line 156. -/
def settingsUpdatedMsg : String := "Settings updated successfully!"

/-- The `p.outro` of lines 142/166 (colour formatting elided). -/
def copiedMsg (u : String) : String :=
  "Your file is copied to the clipboard and hosted at: " ++ u

/-- The `p.outro` of lines 144/168 (colour formatting elided). -/
def hostedMsg (u : String) : String := "Your file is hosted at: " ++ u

/-- The message of the exception thrown when `clipboardy.writeSync`
fails. -/
def clipboardErrMsg : String := "clipboard write failed"

/-- The shared tail of the `NoArgs` and `FilePathArg` branches
(lines 138–145 and 162–169): upload the file, then print the link,
copying it to the clipboard when `-c` was passed or the configuration's
`autoCopy` is truthy. -/
def uploadTail (w : World) (config : JVal) (fp : String)
    (outs : List String) (prompts : List PromptEv) (ws : List JVal)
    (br : Branch) : MainOut :=
  let up := uploadFile fp w.timestamp w.uploadNet
  match up.res with
  | .exited n =>
    { flow := .exited n, outputs := outs ++ up.outputs, prompts := prompts,
      uploads := up.uploads, writes := ws, branch := br }
  | .url u =>
    match jsGetField config "autoCopy" with
    | .error _ =>
      { flow := .threw "TypeError", outputs := outs ++ up.outputs,
        prompts := prompts, uploads := up.uploads, writes := ws, branch := br }
    | .ok v =>
      if w.args.contains "-c" || (match v with | some x => jsTruthy x | none => false) then
        if w.clipboardOk then
          { flow := .done, outputs := outs ++ up.outputs ++ [copiedMsg u],
            prompts := prompts, uploads := up.uploads, writes := ws, branch := br }
        else
          { flow := .threw clipboardErrMsg, outputs := outs ++ up.outputs,
            prompts := prompts, uploads := up.uploads, writes := ws, branch := br }
      else
        { flow := .done, outputs := outs ++ up.outputs ++ [hostedMsg u],
          prompts := prompts, uploads := up.uploads, writes := ws, branch := br }

/-- Lines 122–174 of `src/index.js`: the body of `main`'s `try`,
dispatching on the argument vector. -/
def innerMain (w : World) : MainOut :=
  if w.args.length = 0 then
    let g := getFirebaseConfig w.parse w.configFile false
      w.shouldEditConfig w.readyToProceed w.pasted
    let outs := welcomeMsg :: g.outputs
    match g.res with
    | .exited n =>
      { flow := .exited n, outputs := outs, prompts := g.prompts,
        uploads := [], writes := g.written.toList, branch := .noArgs }
    | .threw m =>
      { flow := .threw m, outputs := outs, prompts := g.prompts,
        uploads := [], writes := g.written.toList, branch := .noArgs }
    | .returned config =>
      let prompts := g.prompts ++ [.filePathAsk]
      let fp := formatFilePath w.filePathInput w.cwd
      if !(w.fsExists fp) then
        { flow := .exited 1, outputs := outs ++ [invalidPathMsg],
          prompts := prompts, uploads := [], writes := g.written.toList,
          branch := .noArgs }
      else
        uploadTail w config fp outs prompts g.written.toList .noArgs
  else if w.args.contains "--config" then
    let g := getFirebaseConfig w.parse w.configFile true
      w.shouldEditConfig w.readyToProceed w.pasted
    match g.res with
    | .exited n =>
      { flow := .exited n, outputs := g.outputs, prompts := g.prompts,
        uploads := [], writes := g.written.toList, branch := .configFlag }
    | .threw m =>
      { flow := .threw m, outputs := g.outputs, prompts := g.prompts,
        uploads := [], writes := g.written.toList, branch := .configFlag }
    | .returned config =>
      let prompts := g.prompts ++ [.autoCopyAsk]
      match jsSetField config "autoCopy" (.bool w.autoCopyAnswer) with
      | .error _ =>
        { flow := .threw "TypeError", outputs := g.outputs, prompts := prompts,
          uploads := [], writes := g.written.toList, branch := .configFlag }
      | .ok config2 =>
        { flow := .done, outputs := g.outputs ++ [settingsUpdatedMsg],
          prompts := prompts, uploads := [],
          writes := g.written.toList ++ [config2], branch := .configFlag }
  else if w.fsExists (formatFilePath (w.args.headD "") w.cwd) then
    let g := getFirebaseConfig w.parse w.configFile false
      w.shouldEditConfig w.readyToProceed w.pasted
    match g.res with
    | .exited n =>
      { flow := .exited n, outputs := g.outputs, prompts := g.prompts,
        uploads := [], writes := g.written.toList, branch := .filePathArg }
    | .threw m =>
      { flow := .threw m, outputs := g.outputs, prompts := g.prompts,
        uploads := [], writes := g.written.toList, branch := .filePathArg }
    | .returned config =>
      let fp := formatFilePath (w.args.headD "") w.cwd
      uploadTail w config fp g.outputs g.prompts g.written.toList .filePathArg
  else if !(w.fsExists (formatFilePath (w.args.headD "") w.cwd)) then
    -- line 171: `p.outro('Invalid file path.')` with no `process.exit`
    { flow := .done, outputs := [invalidPathMsg], prompts := [],
      uploads := [], writes := [], branch := .invalidPath }
  else
    { flow := .done, outputs := [invalidCommandMsg], prompts := [],
      uploads := [], writes := [], branch := .invalidCommand }

/-- Lines 121 and 175–177: the top-level `try`/`catch`.  A thrown
exception reaching the `catch` prints nothing and calls
`process.exit(0)`. -/
def mainRun (w : World) : MainOut :=
  let i := innerMain w
  match i.flow with
  | .threw _ => { i with flow := .exited 0 }
  | _ => i

/-- The process exit code an outcome produces: a normal return of `main`
exits 0; `process.exit(code)` exits with `code`. -/
def MainOut.exitCode (o : MainOut) : Nat :=
  match o.flow with
  | .done => 0
  | .exited n => n
  | .threw _ => 0

/-! ## Shapes of pasted configuration text and of JSON documents -/

/-- The member list of a pasted flat object literal with bare keys and
double-quoted string values: `k1: "v1", k2: "v2", …`. -/
def membersSrc : List (String × String) → List Char
  | [] => []
  | [(k, v)] => k.data ++ ':' :: ' ' :: '"' :: v.data ++ ['"']
  | (k, v) :: tail =>
    k.data ++ ':' :: ' ' :: '"' :: v.data ++ '"' :: ',' :: ' ' :: membersSrc tail

/-- Pasted text of the shape
`const firebaseConfig = {k1: "v1", k2: "v2", …};`. -/
def renderFirebaseConfig (ps : List (String × String)) : String :=
  String.mk ("const firebaseConfig =".data ++
    ' ' :: '\x7b' :: membersSrc ps ++ ['\x7d', ';'])

/-- The member list of the corresponding JSON object:
`"k1": "v1", "k2": "v2", …`. -/
def membersJson : List (String × String) → List Char
  | [] => []
  | [(k, v)] => '"' :: k.data ++ '"' :: ':' :: ' ' :: '"' :: v.data ++ ['"']
  | (k, v) :: tail =>
    '"' :: k.data ++ '"' :: ':' :: ' ' :: '"' :: v.data
      ++ '"' :: ',' :: ' ' :: membersJson tail

/-- The JSON document `{"k1": "v1", "k2": "v2", …}`. -/
def canonicalConfigJson (ps : List (String × String)) : String :=
  String.mk ('\x7b' :: membersJson ps ++ ['\x7d'])

/-- No occurrence of the pattern `\w+:\s` anywhere in the list: no
position holds a word character followed by `':'` followed by a
whitespace character. -/
def noKeyPat : List Char → Bool
  | c1 :: c2 :: c3 :: rest =>
    (!(isWordChar c1 && c2 = ':' && isJsWsChar c3)) && noKeyPat (c2 :: c3 :: rest)
  | _ => true

/-- A character that may appear verbatim inside a JSON string literal:
not a quote, not a backslash, not a control character. -/
def goodStrChar (c : Char) : Bool :=
  c ≠ '"' && c ≠ '\\' && ' ' ≤ c

/-- A bare key of the claimed pasted shape: a nonempty run of word
characters. -/
def goodKey (k : String) : Bool := k ≠ "" && k.data.all isWordChar

/-- A string value for which the transformation of lines 62–66 is
faithful: plain JSON-string characters with no `\w+:\s` pattern
inside. -/
def goodValue (v : String) : Bool := noKeyPat v.data && v.data.all goodStrChar

/-- States of the scanner for flat JSON objects
`{"k": "v", "k2": "v2"}` (exactly the shape the transformation emits).
Any string this scanner accepts is a valid JSON document. -/
inductive FlatSt where
  | start
  | afterBrace
  | inKey
  | afterKey
  | afterColon
  | expectValQuote
  | inVal
  | afterVal
  | afterComma
  | expectKeyQuote
  | closed
  | dead
deriving DecidableEq, Repr

/-- Transition function of the flat-object scanner. -/
def flatStep : FlatSt → Char → FlatSt
  | .start, c => if c = '\x7b' then .afterBrace else .dead
  | .afterBrace, c =>
    if c = '"' then .inKey else if c = '\x7d' then .closed else .dead
  | .inKey, c =>
    if c = '"' then .afterKey else if goodStrChar c then .inKey else .dead
  | .afterKey, c => if c = ':' then .afterColon else .dead
  | .afterColon, c => if c = ' ' then .expectValQuote else .dead
  | .expectValQuote, c => if c = '"' then .inVal else .dead
  | .inVal, c =>
    if c = '"' then .afterVal else if goodStrChar c then .inVal else .dead
  | .afterVal, c =>
    if c = ',' then .afterComma else if c = '\x7d' then .closed else .dead
  | .afterComma, c => if c = ' ' then .expectKeyQuote else .dead
  | .expectKeyQuote, c => if c = '"' then .inKey else .dead
  | .closed, _ => .dead
  | .dead, _ => .dead

/-- Run the flat-object scanner; acceptance means ending in `closed`. -/
def flatScan (st : FlatSt) : List Char → Bool
  | [] => st = .closed
  | c :: rest => flatScan (flatStep st c) rest

/-- The string is a flat JSON object of string keys and string values —
a (sound) subset of the JSON grammar. -/
def flatObjOk (s : String) : Bool := flatScan .start s.data

/-! ### A full JSON validity checker (RFC 8259)

Used to show that a concrete transformation output is *not* JSON. -/

/-- JSON insignificant whitespace. -/
def jsonWsChar (c : Char) : Bool :=
  c = ' ' || c = '\t' || c = '\n' || c = '\r'

/-- Skip JSON whitespace. -/
def skipJsonWs (l : List Char) : List Char := l.dropWhile jsonWsChar

/-- Hexadecimal digit. -/
def isHexDigit (c : Char) : Bool :=
  ('0' ≤ c && c ≤ '9') || ('a' ≤ c && c ≤ 'f') || ('A' ≤ c && c ≤ 'F')

/-- Consume the body of a JSON string literal after its opening quote;
returns the input following the closing quote.  Escapes are the RFC 8259
ones; unescaped control characters are rejected. -/
def jsonStringBody : List Char → Option (List Char)
  | [] => none
  | c :: r =>
    if c = '"' then some r
    else if c = '\\' then
      match r with
      | e :: r2 =>
        if e = '"' || e = '\\' || e = '/' || e = 'b' || e = 'f'
            || e = 'n' || e = 'r' || e = 't' then jsonStringBody r2
        else if e = 'u' then
          match r2 with
          | h1 :: h2 :: h3 :: h4 :: r3 =>
            if isHexDigit h1 && isHexDigit h2 && isHexDigit h3 && isHexDigit h4
            then jsonStringBody r3 else none
          | _ => none
        else none
      | [] => none
    else if c.toNat ≥ 0x20 then jsonStringBody r
    else none

/-- Consume a JSON number (`-?(0|[1-9][0-9]*)(\.[0-9]+)?([eE][+-]?[0-9]+)?`). -/
def jsonNumber (l : List Char) : Option (List Char) :=
  let l1 := match l with
    | '-' :: r => r
    | _ => l
  let intDone : Option (List Char) :=
    match l1 with
    | '0' :: r => some r
    | c :: r => if c.isDigit then some (r.dropWhile Char.isDigit) else none
    | [] => none
  match intDone with
  | none => none
  | some l2 =>
    let l3 := match l2 with
      | '.' :: r =>
        match r with
        | c :: _ => if c.isDigit then some (r.dropWhile Char.isDigit) else none
        | [] => none
      | _ => some l2
    match l3 with
    | none => none
    | some l4 =>
      match l4 with
      | e :: r =>
        if e = 'e' || e = 'E' then
          let r2 := match r with
            | s :: r' => if s = '+' || s = '-' then r' else r
            | [] => r
          match r2 with
          | c :: _ => if c.isDigit then some (r2.dropWhile Char.isDigit) else none
          | [] => none
        else some l4
      | [] => some l4

/-- Parsing modes: a value, the members of an object (after `{` and
leading whitespace, nonempty), the elements of an array. -/
inductive JsonMode where
  | value
  | members
  | elements

/-- Fuel-indexed recursive-descent recogniser for JSON values; returns
the remaining input on success.  Fuel bounded by the input length plus
two always suffices. -/
def jsonRun : Nat → JsonMode → List Char → Option (List Char)
  | 0, _, _ => none
  | fuel + 1, .value, l =>
    match skipJsonWs l with
    | '"' :: r => jsonStringBody r
    | '\x7b' :: r =>
      (match skipJsonWs r with
       | '\x7d' :: r2 => some r2
       | _ => jsonRun fuel .members (skipJsonWs r))
    | '[' :: r =>
      (match skipJsonWs r with
       | ']' :: r2 => some r2
       | _ => jsonRun fuel .elements (skipJsonWs r))
    | 't' :: 'r' :: 'u' :: 'e' :: r => some r
    | 'f' :: 'a' :: 'l' :: 's' :: 'e' :: r => some r
    | 'n' :: 'u' :: 'l' :: 'l' :: r => some r
    | l2 => jsonNumber l2
  | fuel + 1, .members, l =>
    match l with
    | '"' :: r =>
      (match jsonStringBody r with
       | some r2 =>
         (match skipJsonWs r2 with
          | ':' :: r3 =>
            (match jsonRun fuel .value r3 with
             | some r4 =>
               (match skipJsonWs r4 with
                | ',' :: r5 => jsonRun fuel .members (skipJsonWs r5)
                | '\x7d' :: r5 => some r5
                | _ => none)
             | none => none)
          | _ => none)
       | none => none)
    | _ => none
  | fuel + 1, .elements, l =>
    match jsonRun fuel .value l with
    | some r =>
      (match skipJsonWs r with
       | ',' :: r2 => jsonRun fuel .elements r2
       | ']' :: r2 => some r2
       | _ => none)
    | none => none

/-- The string is a valid JSON document (a single JSON value with only
whitespace around it). -/
def jsonValid (s : String) : Bool :=
  match jsonRun (s.length + 2) .value s.data with
  | some r => skipJsonWs r = []
  | none => false

/-! ## Concrete fixtures -/

/-- A valid six-field configuration, as field list. -/
def validCfgFields : List (String × JVal) :=
  [("apiKey", .str "a"), ("authDomain", .str "b"), ("projectId", .str "c"),
   ("storageBucket", .str "d"), ("messagingSenderId", .str "e"), ("appId", .str "f")]

/-- The persisted file content corresponding to `validCfgFields`. -/
def validCfgStr : String :=
  "\x7b\"apiKey\": \"a\", \"authDomain\": \"b\", \"projectId\": \"c\", \"storageBucket\": \"d\", \"messagingSenderId\": \"e\", \"appId\": \"f\"\x7d"

/-- A `JSON.parse` stub that parses exactly `validCfgStr`, agreeing with
the JavaScript `JSON.parse` on it. -/
def parseValid : String → Option JVal :=
  fun s => if s = validCfgStr then some (.obj validCfgFields) else none

/-! ## C1 — forced edit declined on a valid configuration -/

/-- **C1.**  With a valid six-field configuration persisted and
`forceEdit` requested, declining the edit confirmation does *not* return
the existing configuration: line 39 (`return configFileJSON`) evaluates
an identifier whose `const` declaration (line 22) is scoped to the `try`
block of lines 18–27, so the call throws a `ReferenceError` after
printing the "Using existing Firebase configuration." outro.  The
persisted file is indeed not modified (`written = none`), but no
configuration is returned. -/
theorem claim_C1_code_eval :
    getFirebaseConfig parseValid (some validCfgStr) true false true "" =
      { res := .threw configFileJSONRefError, prompts := [.editConfirm],
        outputs := [usingExistingMsg], written := none } := by
  rfl

/-! ## Lemmas about the validity check -/

/-- When every key maps to a string with nonempty trim, the `every`
check succeeds. -/
theorem checkKeysAux_all_good (cfg : JVal) :
    ∀ keys : List String,
      (∀ k ∈ keys, ∃ s, jsGetField cfg k = .ok (some (.str s)) ∧ jsTrim s ≠ "") →
      checkKeysAux cfg keys = .ok true := by
  intro keys
  induction keys with
  | nil => intro _; rfl
  | cons k ks ih =>
    intro h
    obtain ⟨s, hget, htrim⟩ := h k (by simp)
    have hs : s ≠ "" := by
      intro e
      exact htrim (by rw [e]; rfl)
    have h1 : jsTruthy (.str s) = true := by
      simp [jsTruthy, hs]
    have h2 : checkValue (some (.str s)) = .ok true := by
      simp [checkValue, h1, htrim]
    simp only [checkKeysAux, hget, h2, if_true]
    simpa using ih (fun k hk => h k (by simp [hk]))

/-- When some key is missing or maps to the empty string, and every
present value is a string, the `every` check returns `false` (without
throwing). -/
theorem checkKeysAux_some_bad (fields : List (String × JVal)) :
    ∀ keys : List String,
      (∀ k ∈ keys, ∀ v, objGet fields k = some v → ∃ s, v = .str s) →
      (∃ k ∈ keys, objGet fields k = none ∨ objGet fields k = some (.str "")) →
      checkKeysAux (.obj fields) keys = .ok false := by
  intro keys
  induction keys with
  | nil => rintro _ ⟨k, hk, _⟩; exact absurd hk (by simp)
  | cons k ks ih =>
    rintro hstr ⟨kb, hkb, hbad⟩
    match hget : objGet fields k with
    | none =>
      simp [checkKeysAux, jsGetField, hget, checkValue]
    | some v =>
      obtain ⟨s, rfl⟩ := hstr k (by simp) v hget
      by_cases hs : s = ""
      · subst hs
        simp [checkKeysAux, jsGetField, hget, checkValue, jsTruthy]
      · by_cases htr : jsTrim s = ""
        · simp [checkKeysAux, jsGetField, hget, checkValue, jsTruthy, hs, htr]
        · have hkbks : kb ∈ ks := by
            rcases List.mem_cons.mp hkb with rfl | h
            · rcases hbad with h | h
              · rw [hget] at h; exact absurd h (by simp)
              · rw [hget] at h
                injection h with h
                injection h with h
                exact absurd h hs
            · exact h
          have := ih (fun k' hk' => hstr k' (by simp [hk'])) ⟨kb, hkbks, hbad⟩
          simp [checkKeysAux, jsGetField, hget, checkValue, jsTruthy, hs, htr, this]

/-- When some required key is missing or empty on an object, the
`every` check cannot succeed (it returns `false` or throws). -/
theorem checkKeysAux_some_bad_ne_true (fields : List (String × JVal)) :
    ∀ keys : List String,
      (∃ k ∈ keys, objGet fields k = none ∨ objGet fields k = some (.str "")) →
      checkKeysAux (.obj fields) keys ≠ .ok true := by
  intro keys
  induction keys with
  | nil => rintro ⟨k, hk, _⟩; exact absurd hk (by simp)
  | cons k ks ih =>
    rintro ⟨kb, hkb, hbad⟩
    match hget : objGet fields k with
    | none =>
      simp [checkKeysAux, jsGetField, hget, checkValue]
    | some v =>
      match hcv : checkValue (some v) with
      | .error _ => simp [checkKeysAux, jsGetField, hget, hcv]
      | .ok false => simp [checkKeysAux, jsGetField, hget, hcv]
      | .ok true =>
        have hkbks : kb ∈ ks := by
          rcases List.mem_cons.mp hkb with rfl | h
          · rcases hbad with h | h
            · rw [hget] at h; exact absurd h (by simp)
            · rw [hget] at h
              injection h with h
              subst h
              simp [checkValue, jsTruthy] at hcv
          · exact h
        have := ih ⟨kb, hkbks, hbad⟩
        simp [checkKeysAux, jsGetField, hget, hcv, this]

/-! ## C4 — valid persisted configuration, non-forced -/

/-- **C4 (amended).**  For every persisted configuration file that
parses as JSON and whose six required fields are all strings that are
nonempty *after trimming whitespace* (the code checks
`value && value.trim()`, line 25), `getFirebaseConfig` without the
config flag returns that configuration unchanged, issues no prompt,
prints nothing and writes nothing. -/
theorem claim_C4 (parse : String → Option JVal) (content : String) (cfg : JVal)
    (e r : Bool) (p : String)
    (hne : content ≠ "")
    (hp : parse content = some cfg)
    (hkeys : ∀ k ∈ requiredKeys,
      ∃ s, jsGetField cfg k = .ok (some (.str s)) ∧ jsTrim s ≠ "") :
    getFirebaseConfig parse (some content) false e r p =
      { res := .returned cfg, prompts := [], outputs := [], written := none } := by
  have hv : validityCheck parse (some content) = .ok true := by
    simp [validityCheck, hne, hp, checkKeysAux_all_good cfg requiredKeys hkeys]
  simp [getFirebaseConfig, hv, hp]

/-- Concrete instance of the amended C4. -/
theorem claim_C4_witness :
    getFirebaseConfig parseValid (some validCfgStr) false true true "" =
      { res := .returned (.obj validCfgFields), prompts := [], outputs := [],
        written := none } := by
  refine claim_C4 parseValid validCfgStr (.obj validCfgFields) true true ""
    (by decide) rfl ?_
  intro k hk
  simp only [requiredKeys, List.mem_cons, List.not_mem_nil, or_false] at hk
  rcases hk with rfl | rfl | rfl | rfl | rfl | rfl
  · exact ⟨"a", rfl, by decide⟩
  · exact ⟨"b", rfl, by decide⟩
  · exact ⟨"c", rfl, by decide⟩
  · exact ⟨"d", rfl, by decide⟩
  · exact ⟨"e", rfl, by decide⟩
  · exact ⟨"f", rfl, by decide⟩

/-- A six-field configuration whose `apiKey` is the nonempty string
`" "` (a single space). -/
def blankCfgFields : List (String × JVal) :=
  [("apiKey", .str " "), ("authDomain", .str "b"), ("projectId", .str "c"),
   ("storageBucket", .str "d"), ("messagingSenderId", .str "e"), ("appId", .str "f")]

/-- The persisted file content corresponding to `blankCfgFields`. -/
def blankCfgStr : String :=
  "\x7b\"apiKey\": \" \", \"authDomain\": \"b\", \"projectId\": \"c\", \"storageBucket\": \"d\", \"messagingSenderId\": \"e\", \"appId\": \"f\"\x7d"

/-- A `JSON.parse` stub that parses exactly `blankCfgStr`, agreeing
with the JavaScript `JSON.parse` on it. -/
def parseBlank : String → Option JVal :=
  fun s => if s = blankCfgStr then some (.obj blankCfgFields) else none

/-- **C4 (counterexample).**  A persisted configuration whose six
required fields are all *non-empty strings* — `apiKey` being the single
space `" "` — on which `getFirebaseConfig` without the config flag does
issue prompts (it enters interactive setup, because line 25 also
requires `value.trim()` to be truthy), refuting C4 as stated. -/
theorem claim_C4_counterexample :
    (∀ k ∈ requiredKeys, ∃ s, objGet blankCfgFields k = some (.str s) ∧ s ≠ "") ∧
    parseBlank blankCfgStr = some (.obj blankCfgFields) ∧
    (getFirebaseConfig parseBlank (some blankCfgStr) false true false "").prompts ≠ [] := by
  refine ⟨?_, rfl, by decide⟩
  intro k hk
  simp only [requiredKeys, List.mem_cons, List.not_mem_nil, or_false] at hk
  rcases hk with rfl | rfl | rfl | rfl | rfl | rfl
  · exact ⟨" ", rfl, by decide⟩
  · exact ⟨"b", rfl, by decide⟩
  · exact ⟨"c", rfl, by decide⟩
  · exact ⟨"d", rfl, by decide⟩
  · exact ⟨"e", rfl, by decide⟩
  · exact ⟨"f", rfl, by decide⟩

/-! ## C5 — configuration with a missing or empty required field -/

/-- **C5 (amended).**  For every persisted configuration that parses as
a JSON object, in which every *present* required-field value is a
string, and at least one of the six required fields is missing or has an
empty-string value, `getFirebaseConfig` (with or without the config
flag) enters interactive setup: its first prompt is the setup
instructions confirmation, and when the user confirms, the
pasted-configuration prompt follows. -/
theorem claim_C5 (parse : String → Option JVal) (content : String)
    (fields : List (String × JVal)) (flag e r : Bool) (p : String)
    (hp : parse content = some (.obj fields))
    (hstr : ∀ k ∈ requiredKeys, ∀ v, objGet fields k = some v → ∃ s, v = .str s)
    (hbad : ∃ k ∈ requiredKeys,
      objGet fields k = none ∨ objGet fields k = some (.str "")) :
    (getFirebaseConfig parse (some content) flag e r p).prompts.head? =
      some .setupReady ∧
    (r = true →
      .pasteConfig ∈ (getFirebaseConfig parse (some content) flag e r p).prompts) := by
  have hv : validityCheck parse (some content) = .ok false := by
    by_cases hne : content = ""
    · simp [validityCheck, hne]
    · simp [validityCheck, hne, hp,
        checkKeysAux_some_bad fields requiredKeys hstr hbad]
  rcases flag with _ | _ <;>
    · simp only [getFirebaseConfig, hv]
      simp only [setupPart, Bool.not_eq_true]
      rcases r with _ | _
      · simp
      · rcases hps : parse (transformConfigText p) with _ | c <;> simp [hps]

/-- Concrete instance of the amended C5: `authDomain` is present but
empty, the remaining fields are fine. -/
theorem claim_C5_witness :
    (getFirebaseConfig
        (fun s => if s = "cfg" then some (.obj [("apiKey", .str "a"), ("authDomain", .str "")]) else none)
        (some "cfg") false true true "junk").prompts.head? = some .setupReady := by
  refine (claim_C5 _ "cfg" [("apiKey", .str "a"), ("authDomain", .str "")]
    false true true "junk" rfl ?_ ⟨"authDomain", by decide, Or.inr rfl⟩).1
  intro k _ v hv
  by_cases h1 : k = "apiKey"
  · subst h1
    exact ⟨"a", by simpa [objGet] using hv.symm⟩
  · by_cases h2 : k = "authDomain"
    · subst h2
      exact ⟨"", by simpa [objGet] using hv.symm⟩
    · exfalso
      have e1 : ("authDomain" == k) = false :=
        beq_eq_false_iff_ne.mpr (fun h => h2 h.symm)
      have e2 : ("apiKey" == k) = false :=
        beq_eq_false_iff_ne.mpr (fun h => h1 h.symm)
      simp [objGet, List.find?, e1, e2] at hv

/-- A persisted configuration whose `apiKey` is the number `5`
(truthy, not a string) and whose other required fields are missing. -/
def numCfgFields : List (String × JVal) := [("apiKey", .num 5)]

/-- The persisted file content corresponding to `numCfgFields`. -/
def numCfgStr : String := "\x7b\"apiKey\": 5\x7d"

/-- A `JSON.parse` stub that parses exactly `numCfgStr`, agreeing with
the JavaScript `JSON.parse` on it. -/
def parseNum : String → Option JVal :=
  fun s => if s = numCfgStr then some (.obj numCfgFields) else none

/-- **C5 (counterexample).**  A persisted configuration in which five of
the six required fields are missing (`authDomain` among them) — but
whose `apiKey` holds the truthy non-string `5`.  The validity check
evaluates `(5).trim()`, a `TypeError`, the `catch` of line 27 fires,
and the non-forced call prints the invalid-configuration outro and
exits 1 — no interactive setup, no prompt at all — refuting C5 as
stated. -/
theorem claim_C5_counterexample :
    objGet numCfgFields "authDomain" = none ∧
    getFirebaseConfig parseNum (some numCfgStr) false true true "" =
      { res := .exited 1, prompts := [], outputs := [invalidConfigMsg],
        written := none } := by
  exact ⟨rfl, rfl⟩

/-! ## C8 — `--config` with no prior valid configuration -/

/-- In forced mode, any not-definitely-valid persisted state skips the
edit confirmation and goes straight to setup. -/
theorem gfc_forced_invalid (parse : String → Option JVal) (file : Option String)
    (e r : Bool) (p : String) (hv : validityCheck parse file ≠ .ok true) :
    getFirebaseConfig parse file true e r p = setupPart parse r p [] [] := by
  unfold getFirebaseConfig
  match h : validityCheck parse file with
  | .error _ => simp
  | .ok true => exact absurd h hv
  | .ok false => simp

/-- The prompts setup produces: the instructions confirmation, then
possibly the paste prompt. -/
theorem setupPart_prompts_shape (parse : String → Option JVal) (r : Bool)
    (p : String) (pr0 : List PromptEv) (o0 : List String) :
    (setupPart parse r p pr0 o0).prompts = pr0 ++ [.setupReady] ∨
    (setupPart parse r p pr0 o0).prompts = pr0 ++ [.setupReady, .pasteConfig] := by
  unfold setupPart
  rcases r with _ | _
  · simp
  · rcases h : parse (transformConfigText p) with _ | c <;> simp [h]

/-- `mainRun` only adjusts the flow of `innerMain`; the trace fields are
unchanged. -/
theorem mainRun_fields (w : World) :
    (mainRun w).prompts = (innerMain w).prompts ∧
    (mainRun w).outputs = (innerMain w).outputs ∧
    (mainRun w).uploads = (innerMain w).uploads ∧
    (mainRun w).writes = (innerMain w).writes ∧
    (mainRun w).branch = (innerMain w).branch := by
  unfold mainRun
  rcases h : (innerMain w).flow with _ | n | m <;> simp [h]

/-- **C8.**  Invoking with `--config` when no prior valid configuration
exists — the file is missing, or it does not parse, or a required field
of the parsed object is missing or empty — skips the "edit existing?"
confirmation entirely and starts with the setup instructions prompt. -/
theorem claim_C8 (w : World)
    (hc : w.args.contains "--config" = true)
    (hcase : w.configFile = none
      ∨ (∃ s, w.configFile = some s ∧ w.parse s = none)
      ∨ (∃ s fields, w.configFile = some s ∧ w.parse s = some (.obj fields) ∧
          ∃ k ∈ requiredKeys,
            objGet fields k = none ∨ objGet fields k = some (.str ""))) :
    PromptEv.editConfirm ∉ (mainRun w).prompts ∧
    (mainRun w).prompts.head? = some .setupReady := by
  have hv : validityCheck w.parse w.configFile ≠ .ok true := by
    rcases hcase with h | ⟨s, hs, hps⟩ | ⟨s, fields, hs, hps, hbad⟩
    · simp [validityCheck, h]
    · rw [hs]
      by_cases hse : s = ""
      · simp [validityCheck, hse]
      · simp [validityCheck, hse, hps]
    · rw [hs]
      by_cases hse : s = ""
      · simp [validityCheck, hse]
      · simp only [validityCheck, hse, if_neg, hps]
        simpa using checkKeysAux_some_bad_ne_true fields requiredKeys hbad
  have hne : ¬(w.args.length = 0) := by
    intro h0
    have he : w.args = [] := List.eq_nil_of_length_eq_zero h0
    rw [he] at hc
    simp at hc
  have hg := gfc_forced_invalid w.parse w.configFile
    w.shouldEditConfig w.readyToProceed w.pasted hv
  have hshape := setupPart_prompts_shape w.parse w.readyToProceed w.pasted [] []
  have hprompts :
      (innerMain w).prompts =
        (setupPart w.parse w.readyToProceed w.pasted [] []).prompts ∨
      (innerMain w).prompts =
        (setupPart w.parse w.readyToProceed w.pasted [] []).prompts
          ++ [.autoCopyAsk] := by
    unfold innerMain
    rw [if_neg hne, if_pos hc, hg]
    rcases hres : (setupPart w.parse w.readyToProceed w.pasted [] []).res
      with c | n | m
    · rcases hset : jsSetField c "autoCopy" (.bool w.autoCopyAnswer)
        with _ | c2 <;> simp [hres, hset]
    · simp [hres]
    · simp [hres]
  obtain ⟨hp, -⟩ := mainRun_fields w
  rw [hp]
  rcases hprompts with h1 | h1 <;> rw [h1] <;>
    rcases hshape with h2 | h2 <;> rw [h2] <;> simp

/-- Concrete instance of C8: `--config` with no persisted file. -/
theorem claim_C8_witness :
    PromptEv.editConfirm ∉
      (mainRun
        { args := ["--config"], cwd := "/", fsExists := fun _ => false,
          parse := fun _ => none, configFile := none, shouldEditConfig := true,
          readyToProceed := false, pasted := "", filePathInput := "",
          autoCopyAnswer := false, timestamp := 0, uploadNet := .error "off",
          clipboardOk := true }).prompts ∧
    (mainRun
        { args := ["--config"], cwd := "/", fsExists := fun _ => false,
          parse := fun _ => none, configFile := none, shouldEditConfig := true,
          readyToProceed := false, pasted := "", filePathInput := "",
          autoCopyAnswer := false, timestamp := 0, uploadNet := .error "off",
          clipboardOk := true }).prompts.head? = some .setupReady :=
  claim_C8 _ (by decide) (Or.inl rfl)

/-! ## C6 — nonexistent path argument, and C9 — unreachable usage error -/

/-- **C6.**  A single argument (other than the recognised `--config`
flag) that does not resolve to an existing file takes the `InvalidPath`
branch: the "Invalid file path." error is printed, and no upload or
other network call, no prompt, and no other output happens. -/
theorem claim_C6 (w : World) (a : String)
    (h1 : w.args = [a]) (h2 : a ≠ "--config")
    (h3 : w.fsExists (formatFilePath a w.cwd) = false) :
    (mainRun w).branch = .invalidPath ∧
    (mainRun w).outputs = [invalidPathMsg] ∧
    (mainRun w).uploads = [] ∧
    (mainRun w).prompts = [] := by
  have hne : ¬(w.args.length = 0) := by rw [h1]; simp
  have hmem : ¬("--config" ∈ w.args) := by
    rw [h1]
    simpa using fun h : "--config" = a => h2 h.symm
  have hhead : w.args.headD "" = a := by rw [h1]; rfl
  have hmain : innerMain w =
      { flow := .done, outputs := [invalidPathMsg], prompts := [],
        uploads := [], writes := [], branch := .invalidPath } := by
    unfold innerMain
    rw [if_neg hne]
    simp only [hhead]
    simp [hmem, h3]
  obtain ⟨hp, ho, hu, -, hb⟩ := mainRun_fields w
  rw [hp, ho, hu, hb, hmain]
  exact ⟨rfl, rfl, rfl, rfl⟩

/-- Concrete instance of C6: `npx permagen nope.txt` with no such
file. -/
theorem claim_C6_witness :
    (mainRun
      { args := ["nope.txt"], cwd := "/home/u", fsExists := fun _ => false,
        parse := fun _ => none, configFile := none, shouldEditConfig := false,
        readyToProceed := false, pasted := "", filePathInput := "",
        autoCopyAnswer := false, timestamp := 0, uploadNet := .error "off",
        clipboardOk := true }).branch = .invalidPath ∧
    (mainRun
      { args := ["nope.txt"], cwd := "/home/u", fsExists := fun _ => false,
        parse := fun _ => none, configFile := none, shouldEditConfig := false,
        readyToProceed := false, pasted := "", filePathInput := "",
        autoCopyAnswer := false, timestamp := 0, uploadNet := .error "off",
        clipboardOk := true }).outputs = [invalidPathMsg] ∧
    (mainRun
      { args := ["nope.txt"], cwd := "/home/u", fsExists := fun _ => false,
        parse := fun _ => none, configFile := none, shouldEditConfig := false,
        readyToProceed := false, pasted := "", filePathInput := "",
        autoCopyAnswer := false, timestamp := 0, uploadNet := .error "off",
        clipboardOk := true }).uploads = [] ∧
    (mainRun
      { args := ["nope.txt"], cwd := "/home/u", fsExists := fun _ => false,
        parse := fun _ => none, configFile := none, shouldEditConfig := false,
        readyToProceed := false, pasted := "", filePathInput := "",
        autoCopyAnswer := false, timestamp := 0, uploadNet := .error "off",
        clipboardOk := true }).prompts = [] :=
  claim_C6 _ "nope.txt" rfl (by decide) rfl

/-- The branch recorded by the shared upload tail is the one passed
in. -/
theorem uploadTail_branch (w : World) (c : JVal) (fp : String)
    (o : List String) (pr : List PromptEv) (ws : List JVal) (br : Branch) :
    (uploadTail w c fp o pr ws br).branch = br := by
  unfold uploadTail
  rcases hu : (uploadFile fp w.timestamp w.uploadNet).res with u | n
  · rcases hg : jsGetField c "autoCopy" with e | v
    · simp [hu, hg]
    · simp only [hu, hg]
      split_ifs <;> rfl
  · simp [hu]

/-- **C9.**  The `InvalidCommand` branch (line 173) is unreachable: for
every environment whatsoever — in particular every non-empty argument
vector without `--config` — the dispatch ends in one of the other four
branches, because the guard of line 170 is the negation of the guard of
line 157. -/
theorem claim_C9 (w : World) : (mainRun w).branch ≠ .invalidCommand := by
  obtain ⟨-, -, -, -, hb⟩ := mainRun_fields w
  rw [hb]
  unfold innerMain
  by_cases h0 : w.args.length = 0
  · rw [if_pos h0]
    rcases hres : (getFirebaseConfig w.parse w.configFile false
      w.shouldEditConfig w.readyToProceed w.pasted).res with c | n | m
    · simp only [hres]
      by_cases hfs : w.fsExists (formatFilePath w.filePathInput w.cwd)
      · simpa [hfs] using
          fun h => by rw [uploadTail_branch] at h; exact absurd h (by simp)
      · simp [hfs]
    · simp [hres]
    · simp [hres]
  · rw [if_neg h0]
    by_cases hc : w.args.contains "--config" = true
    · rw [if_pos hc]
      rcases hres : (getFirebaseConfig w.parse w.configFile true
        w.shouldEditConfig w.readyToProceed w.pasted).res with c | n | m
      · rcases hset : jsSetField c "autoCopy" (.bool w.autoCopyAnswer)
          with _ | c2 <;> simp [hres, hset]
      · simp [hres]
      · simp [hres]
    · rw [if_neg hc]
      by_cases hfs : w.fsExists (formatFilePath (w.args.headD "") w.cwd)
      · rw [if_pos hfs]
        rcases hres : (getFirebaseConfig w.parse w.configFile false
          w.shouldEditConfig w.readyToProceed w.pasted).res with c | n | m
        · simp only [hres]
          intro h
          rw [uploadTail_branch] at h
          exact absurd h (by simp)
        · simp [hres]
        · simp [hres]
      · have hD : w.args.headD "" = w.args.head?.getD "" := by
          cases w.args <;> rfl
        have hfs' : w.fsExists (formatFilePath (w.args.head?.getD "") w.cwd)
            = false := by
          rw [← hD]
          simpa using hfs
        simp [hfs']

/-! ## C10 — every escaped exception is caught, exit 0, silent -/

/-- **C10.**  Any exception that escapes the dispatch flow inside
`main`'s `try` is caught by the top-level handler of lines 175–177,
which prints nothing and terminates with exit code 0 (first conjunct).
Two concrete such exceptions: the `ReferenceError` of the forced-edit
decline (second conjunct), and a clipboard write failure after a
successful upload (third conjunct). -/
theorem claim_C10 :
    (∀ (w : World) (m : String), (innerMain w).flow = .threw m →
      (mainRun w).exitCode = 0 ∧ (mainRun w).flow = .exited 0 ∧
      (mainRun w).outputs = (innerMain w).outputs) ∧
    (∀ w : World, w.args.contains "--config" = true →
      validityCheck w.parse w.configFile = .ok true →
      w.shouldEditConfig = false →
      (innerMain w).flow = .threw configFileJSONRefError ∧
      (mainRun w).exitCode = 0) ∧
    (∀ (w : World) (a : String) (config : JVal) (v : Option JVal) (u : String),
      w.args = [a] → a ≠ "--config" →
      w.fsExists (formatFilePath a w.cwd) = true →
      (getFirebaseConfig w.parse w.configFile false w.shouldEditConfig
        w.readyToProceed w.pasted).res = .returned config →
      w.uploadNet = .ok u →
      jsGetField config "autoCopy" = .ok v →
      (w.args.contains "-c"
        || (match v with | some x => jsTruthy x | none => false)) = true →
      w.clipboardOk = false →
      (innerMain w).flow = .threw clipboardErrMsg ∧
      (mainRun w).exitCode = 0) := by
  refine ⟨?_, ?_, ?_⟩
  · intro w m h
    simp [mainRun, h, MainOut.exitCode]
  · intro w hc hv hedit
    have hne : ¬(w.args.length = 0) := by
      intro h0
      have he : w.args = [] := List.eq_nil_of_length_eq_zero h0
      rw [he] at hc
      simp at hc
    have hg : getFirebaseConfig w.parse w.configFile true w.shouldEditConfig
        w.readyToProceed w.pasted =
        { res := .threw configFileJSONRefError, prompts := [.editConfirm],
          outputs := [usingExistingMsg], written := none } := by
      unfold getFirebaseConfig
      rw [hv]
      simp [hedit]
    have hflow : (innerMain w).flow = .threw configFileJSONRefError := by
      unfold innerMain
      rw [if_neg hne, if_pos hc, hg]
    exact ⟨hflow, by simp [mainRun, hflow, MainOut.exitCode]⟩
  · intro w a config v u h1 h2 hfs hres hnet hget hcopy hclip
    have hne : ¬(w.args.length = 0) := by rw [h1]; simp
    have hcfg : ¬(w.args.contains "--config" = true) := by
      rw [h1]
      simpa using fun h : "--config" = a => h2 h.symm
    have hhead : w.args.headD "" = a := by rw [h1]; rfl
    have hflow : (innerMain w).flow = .threw clipboardErrMsg := by
      unfold innerMain
      rw [if_neg hne, if_neg hcfg, hhead, if_pos hfs]
      simp only [hres]
      unfold uploadTail
      simp only [uploadFile, hnet, hget, destName]
      rw [if_pos hcopy, hclip]
      simp
    exact ⟨hflow, by simp [mainRun, hflow, MainOut.exitCode]⟩

/-- Concrete instance of C10: `npx permagen --config` with the valid
persisted configuration and the edit confirmation declined — the
`ReferenceError` of line 39 is swallowed and the process exits 0. -/
theorem claim_C10_witness :
    (innerMain
      { args := ["--config"], cwd := "/", fsExists := fun _ => false,
        parse := parseValid, configFile := some validCfgStr,
        shouldEditConfig := false, readyToProceed := true, pasted := "",
        filePathInput := "", autoCopyAnswer := false, timestamp := 0,
        uploadNet := .error "off", clipboardOk := true }).flow =
      .threw configFileJSONRefError ∧
    (mainRun
      { args := ["--config"], cwd := "/", fsExists := fun _ => false,
        parse := parseValid, configFile := some validCfgStr,
        shouldEditConfig := false, readyToProceed := true, pasted := "",
        filePathInput := "", autoCopyAnswer := false, timestamp := 0,
        uploadNet := .error "off", clipboardOk := true }).exitCode = 0 :=
  claim_C10.2.1 _ (by decide) rfl rfl

/-! ## C7 — exit codes -/

/-- In non-forced mode, a persisted state whose validity check is
`false` goes to setup. -/
theorem gfc_nonforced_invalid (parse : String → Option JVal)
    (file : Option String) (e r : Bool) (p : String)
    (hv : validityCheck parse file = .ok false) :
    getFirebaseConfig parse file false e r p = setupPart parse r p [] [] := by
  unfold getFirebaseConfig
  rw [hv]
  simp

/-- Declining the setup instructions exits 0 silently: the only output
beyond what was already printed is the setup header. -/
theorem setupPart_declined (parse : String → Option JVal) (p : String)
    (pr0 : List PromptEv) (o0 : List String) :
    setupPart parse false p pr0 o0 =
      { res := .exited 0, prompts := pr0 ++ [.setupReady],
        outputs := o0 ++ [configIntroMsg], written := none } := by
  simp [setupPart]

/-- An unparseable pasted object prints the invalid-format outro and
exits 1. -/
theorem setupPart_badpaste (parse : String → Option JVal) (p : String)
    (pr0 : List PromptEv) (o0 : List String)
    (h : parse (transformConfigText p) = none) :
    setupPart parse true p pr0 o0 =
      { res := .exited 1, prompts := pr0 ++ [.setupReady, .pasteConfig],
        outputs := o0 ++ [configIntroMsg, invalidFormatMsg], written := none } := by
  simp [setupPart, h]

/-- **C7.**  Exit codes: 0 on a successful upload (a); 0, silently, on a
user-declined setup, both from the no-argument invocation (b) and from
`--config` (b'); 1 on a malformed persisted configuration in non-forced
mode (c); 1 on an unparseable pasted object (d); 1 on a failed
upload (e). -/
theorem claim_C7 :
    (∀ (w : World) (a : String) (config : JVal) (v : Option JVal) (u : String),
      w.args = [a] → a ≠ "--config" →
      w.fsExists (formatFilePath a w.cwd) = true →
      (getFirebaseConfig w.parse w.configFile false w.shouldEditConfig
        w.readyToProceed w.pasted).res = .returned config →
      w.uploadNet = .ok u →
      jsGetField config "autoCopy" = .ok v →
      (w.args.contains "-c"
        || (match v with | some x => jsTruthy x | none => false)) = false →
      (mainRun w).exitCode = 0) ∧
    (∀ w : World, w.args = [] →
      validityCheck w.parse w.configFile = .ok false →
      w.readyToProceed = false →
      (mainRun w).exitCode = 0 ∧
      (mainRun w).outputs = [welcomeMsg, configIntroMsg]) ∧
    (∀ w : World, w.args.contains "--config" = true →
      validityCheck w.parse w.configFile ≠ .ok true →
      w.readyToProceed = false →
      (mainRun w).exitCode = 0 ∧ (mainRun w).outputs = [configIntroMsg]) ∧
    (∀ (w : World) (s : String), w.args = [] →
      w.configFile = some s → s ≠ "" → w.parse s = none →
      (mainRun w).exitCode = 1 ∧
      (mainRun w).outputs = [welcomeMsg, invalidConfigMsg]) ∧
    (∀ w : World, w.args = [] →
      validityCheck w.parse w.configFile = .ok false →
      w.readyToProceed = true →
      w.parse (transformConfigText w.pasted) = none →
      (mainRun w).exitCode = 1 ∧
      (mainRun w).outputs = [welcomeMsg, configIntroMsg, invalidFormatMsg]) ∧
    (∀ (w : World) (a : String) (config : JVal) (e : String),
      w.args = [a] → a ≠ "--config" →
      w.fsExists (formatFilePath a w.cwd) = true →
      (getFirebaseConfig w.parse w.configFile false w.shouldEditConfig
        w.readyToProceed w.pasted).res = .returned config →
      w.uploadNet = .error e →
      (mainRun w).exitCode = 1) := by
  refine ⟨?_, ?_, ?_, ?_, ?_, ?_⟩
  · intro w a config v u h1 h2 hfs hres hnet hget hcopy
    have hne : ¬(w.args.length = 0) := by rw [h1]; simp
    have hcfg : ¬(w.args.contains "--config" = true) := by
      rw [h1]
      simpa using fun h : "--config" = a => h2 h.symm
    have hhead : w.args.headD "" = a := by rw [h1]; rfl
    have hflow : (innerMain w).flow = .done := by
      unfold innerMain
      rw [if_neg hne, if_neg hcfg, hhead, if_pos hfs]
      simp only [hres]
      unfold uploadTail
      simp only [uploadFile, hnet, hget, destName]
      rw [hcopy]
      simp
    simp [mainRun, hflow, MainOut.exitCode]
  · intro w h0 hv hr
    have hg : getFirebaseConfig w.parse w.configFile false w.shouldEditConfig
        w.readyToProceed w.pasted =
        { res := .exited 0, prompts := [.setupReady],
          outputs := [configIntroMsg], written := none } := by
      rw [gfc_nonforced_invalid _ _ _ _ _ hv, hr, setupPart_declined]
      simp
    have hmain : innerMain w =
        { flow := .exited 0, outputs := [welcomeMsg, configIntroMsg],
          prompts := [.setupReady], uploads := [], writes := [],
          branch := .noArgs } := by
      unfold innerMain
      simp [h0, hg]
    simp [mainRun, hmain, MainOut.exitCode]
  · intro w hc hv hr
    have hne : ¬(w.args.length = 0) := by
      intro h0
      rw [List.eq_nil_of_length_eq_zero h0] at hc
      simp at hc
    have hg : getFirebaseConfig w.parse w.configFile true w.shouldEditConfig
        w.readyToProceed w.pasted =
        { res := .exited 0, prompts := [.setupReady],
          outputs := [configIntroMsg], written := none } := by
      rw [gfc_forced_invalid _ _ _ _ _ hv, hr, setupPart_declined]
      simp
    have hmain : innerMain w =
        { flow := .exited 0, outputs := [configIntroMsg],
          prompts := [.setupReady], uploads := [], writes := [],
          branch := .configFlag } := by
      unfold innerMain
      rw [if_neg hne, if_pos hc, hg]
      rfl
    simp [mainRun, hmain, MainOut.exitCode]
  · intro w s h0 hfile hne hp
    have hv : validityCheck w.parse w.configFile = .error () := by
      simp [validityCheck, hfile, hne, hp]
    have hg : getFirebaseConfig w.parse w.configFile false w.shouldEditConfig
        w.readyToProceed w.pasted =
        { res := .exited 1, prompts := [], outputs := [invalidConfigMsg],
          written := none } := by
      unfold getFirebaseConfig
      rw [hv]
      simp
    have hmain : innerMain w =
        { flow := .exited 1, outputs := [welcomeMsg, invalidConfigMsg],
          prompts := [], uploads := [], writes := [], branch := .noArgs } := by
      unfold innerMain
      simp [h0, hg]
    simp [mainRun, hmain, MainOut.exitCode]
  · intro w h0 hv hr hp
    have hg : getFirebaseConfig w.parse w.configFile false w.shouldEditConfig
        w.readyToProceed w.pasted =
        { res := .exited 1, prompts := [.setupReady, .pasteConfig],
          outputs := [configIntroMsg, invalidFormatMsg], written := none } := by
      rw [gfc_nonforced_invalid _ _ _ _ _ hv, hr, setupPart_badpaste _ _ _ _ hp]
      simp
    have hmain : innerMain w =
        { flow := .exited 1,
          outputs := [welcomeMsg, configIntroMsg, invalidFormatMsg],
          prompts := [.setupReady, .pasteConfig], uploads := [], writes := [],
          branch := .noArgs } := by
      unfold innerMain
      simp [h0, hg]
    simp [mainRun, hmain, MainOut.exitCode]
  · intro w a config e h1 h2 hfs hres hnet
    have hne : ¬(w.args.length = 0) := by rw [h1]; simp
    have hcfg : ¬(w.args.contains "--config" = true) := by
      rw [h1]
      simpa using fun h : "--config" = a => h2 h.symm
    have hhead : w.args.headD "" = a := by rw [h1]; rfl
    have hflow : (innerMain w).flow = .exited 1 := by
      unfold innerMain
      rw [if_neg hne, if_neg hcfg, hhead, if_pos hfs]
      simp only [hres]
      unfold uploadTail
      simp only [uploadFile, hnet, destName]
    simp [mainRun, hflow, MainOut.exitCode]

/-- Concrete instance of C7 (declined setup): exit code 0 and no error
output. -/
theorem claim_C7_witness :
    (mainRun
      { args := [], cwd := "/", fsExists := fun _ => false,
        parse := fun _ => none, configFile := none, shouldEditConfig := false,
        readyToProceed := false, pasted := "", filePathInput := "",
        autoCopyAnswer := false, timestamp := 0, uploadNet := .error "off",
        clipboardOk := true }).exitCode = 0 ∧
    (mainRun
      { args := [], cwd := "/", fsExists := fun _ => false,
        parse := fun _ => none, configFile := none, shouldEditConfig := false,
        readyToProceed := false, pasted := "", filePathInput := "",
        autoCopyAnswer := false, timestamp := 0, uploadNet := .error "off",
        clipboardOk := true }).outputs = [welcomeMsg, configIntroMsg] :=
  claim_C7.2.1 _ rfl rfl rfl

/-! ## C2 — destination object names -/

/-- The fuel-indexed digit extractor agrees with `Nat.digits` whenever
the fuel covers the number. -/
theorem natDigitsAux_eq : ∀ fuel n : Nat, n ≤ fuel →
    natDigitsAux fuel n = (Nat.digits 10 n).map Nat.digitChar := by
  intro fuel
  induction fuel with
  | zero =>
    intro n hn
    have h0 : n = 0 := Nat.le_zero.mp hn
    subst h0
    simp [natDigitsAux]
  | succ fuel ih =>
    intro n hn
    by_cases h0 : n = 0
    · subst h0
      simp [natDigitsAux]
    · rw [Nat.digits_def' (by norm_num : (1:ℕ) < 10) (Nat.pos_of_ne_zero h0)]
      simp only [natDigitsAux, h0, if_false, List.map_cons]
      congr 1
      refine ih (n / 10) ?_
      have hlt : n / 10 < n := Nat.div_lt_self (Nat.pos_of_ne_zero h0) (by norm_num)
      omega

/-- `Nat.digitChar` is injective on digits. -/
theorem digitChar_inj_lt : ∀ a < 10, ∀ b < 10,
    Nat.digitChar a = Nat.digitChar b → a = b := by decide

/-- Mapping `Nat.digitChar` over digit lists is injective. -/
theorem map_digitChar_inj : ∀ l1 l2 : List Nat,
    (∀ x ∈ l1, x < 10) → (∀ x ∈ l2, x < 10) →
    l1.map Nat.digitChar = l2.map Nat.digitChar → l1 = l2
  | [], [], _, _, _ => rfl
  | [], _ :: _, _, _, h => by simp at h
  | _ :: _, [], _, _, h => by simp at h
  | a :: l1, b :: l2, h1, h2, h => by
    simp only [List.map_cons, List.cons.injEq] at h
    have hab : a = b :=
      digitChar_inj_lt a (h1 a (by simp)) b (h2 b (by simp)) h.1
    rw [hab, map_digitChar_inj l1 l2 (fun x hx => h1 x (by simp [hx]))
      (fun x hx => h2 x (by simp [hx])) h.2]

/-- The decimal rendering of a nonzero number is not `"0"`. -/
theorem natDec_pos_ne_zero_str (n : Nat) (hn : n ≠ 0) :
    String.mk ((Nat.digits 10 n).map Nat.digitChar).reverse ≠ "0" := by
  intro h
  have hd : ((Nat.digits 10 n).map Nat.digitChar).reverse = "0".data :=
    congrArg String.data h
  have h1 : (Nat.digits 10 n).map Nat.digitChar = ['0'] := by
    have h2 := congrArg List.reverse hd
    simpa using h2
  have h2 : Nat.digits 10 n = [0] := by
    rcases hl : Nat.digits 10 n with _ | ⟨d, ds⟩
    · rw [hl] at h1
      simp at h1
    · rw [hl] at h1
      simp only [List.map_cons, List.cons.injEq] at h1
      have hds : ds = [] := by
        have := h1.2
        simpa using this
      have hdlt : d < 10 := Nat.digits_lt_base (by norm_num) (by rw [hl]; simp)
      have hd0 : d = 0 :=
        digitChar_inj_lt d hdlt 0 (by norm_num) (by rw [h1.1]; rfl)
      rw [hds, hd0]
  have h3 := Nat.ofDigits_digits 10 n
  rw [h2] at h3
  simp [Nat.ofDigits] at h3
  exact hn h3.symm

/-- The decimal rendering of natural numbers is injective: distinct
timestamps give distinct strings. -/
theorem natDecToString_inj (m n : Nat)
    (h : natDecToString m = natDecToString n) : m = n := by
  unfold natDecToString at h
  by_cases hm : m = 0 <;> by_cases hn : n = 0
  · rw [hm, hn]
  · rw [if_pos hm, if_neg hn, natDigitsAux_eq n n le_rfl] at h
    exact absurd h.symm (natDec_pos_ne_zero_str n hn)
  · rw [if_neg hm, if_pos hn, natDigitsAux_eq m m le_rfl] at h
    exact absurd h (natDec_pos_ne_zero_str m hm)
  · rw [if_neg hm, if_neg hn, natDigitsAux_eq m m le_rfl,
      natDigitsAux_eq n n le_rfl] at h
    have hd : ((Nat.digits 10 m).map Nat.digitChar).reverse =
        ((Nat.digits 10 n).map Nat.digitChar).reverse := congrArg String.data h
    have hmap := List.reverse_injective hd
    have hdig := map_digitChar_inj _ _
      (fun x hx => Nat.digits_lt_base (by norm_num) hx)
      (fun x hx => Nat.digits_lt_base (by norm_num) hx) hmap
    exact Nat.digits_inj_iff.mp hdig

/-- A list is a `isPrefixOf` of itself followed by anything. -/
theorem isPrefixOf_append_self : ∀ l t : List Char, l.isPrefixOf (l ++ t) = true
  | [], _ => by simp [List.isPrefixOf]
  | c :: l, t => by simp [List.isPrefixOf, isPrefixOf_append_self l t]

/-- **C2.**  For an input file path whose (quote-stripped) base name
decomposes as `B ++ E` with extension `E`, the uploader's destination
object name at timestamp `T` is `B ++ "_" ++ T ++ E` (so `photo.png`
becomes `photo_T.png`), and uploads at distinct millisecond timestamps
— as two `Date.now()` calls of two distinct uploads are — get distinct
destination names, so repeated uploads of identically named files never
overwrite one another. -/
theorem claim_C2 (filePath B E : String)
    (hB : posixBasename (stripOuterQuotes filePath) = B ++ E)
    (hE : posixExtname (B ++ E) = E)
    (hBne : B ≠ "") :
    (∀ T, destName filePath T = B ++ "_" ++ natDecToString T ++ E) ∧
    (∀ T1 T2, T1 ≠ T2 → destName filePath T1 ≠ destName filePath T2) := by
  have hdrop : basenameDropExt (B ++ E) E = B := by
    unfold basenameDropExt
    by_cases hEe : E = ""
    · rw [if_neg (by simp [hEe])]
      subst hEe
      exact String.ext (by simp [String.data_append])
    · have hne2 : B ++ E ≠ E := by
        intro heq
        have hdat := congrArg String.data heq
        rw [String.data_append] at hdat
        have hlen := congrArg List.length hdat
        simp only [List.length_append] at hlen
        have hB0 : B.data = [] := List.eq_nil_of_length_eq_zero (by omega)
        exact hBne (String.ext (by simp [hB0]))
      rw [if_pos]
      · refine String.ext ?_
        show (B ++ E).data.take ((B ++ E).data.length - E.data.length) = B.data
        rw [String.data_append]
        simp only [List.length_append]
        have h3 : B.data.length + E.data.length - E.data.length =
            B.data.length := by omega
        rw [h3, List.take_left]
      · have hpre : E.data.reverse.isPrefixOf (B ++ E).data.reverse = true := by
          rw [String.data_append, List.reverse_append]
          exact isPrefixOf_append_self _ _
        simp [hEe, hne2, hpre]
  have hdest : ∀ T, destName filePath T = B ++ "_" ++ natDecToString T ++ E := by
    intro T
    unfold destName
    rw [hB, hE, hdrop]
  refine ⟨hdest, ?_⟩
  intro T1 T2 hT h
  rw [hdest T1, hdest T2] at h
  apply hT
  apply natDecToString_inj
  have hd := congrArg String.data h
  simp only [String.data_append, List.append_assoc] at hd
  have h1 := List.append_cancel_left hd
  have h2 := List.append_cancel_left h1
  exact String.ext (List.append_cancel_right h2)

/-- Concrete instance of C2: `photo.png` at timestamp 1700000000000,
and two uploads at timestamps 3 and 7. -/
theorem claim_C2_witness :
    destName "photo.png" 1700000000000 = "photo_1700000000000.png" ∧
    destName "photo.png" 3 ≠ destName "photo.png" 7 := by
  have h := claim_C2 "photo.png" "photo" ".png" rfl rfl (by decide)
  refine ⟨?_, h.2 3 7 (by decide)⟩
  rw [h.1 1700000000000]
  rfl

/-! ## C3 — the pasted-text-to-JSON transformation -/

theorem qkAux_word (run rest : List Char) (c : Char)
    (hc : isWordChar c = true) :
    qkAux run false (c :: rest) = qkAux (run ++ [c]) false rest := by
  simp [qkAux, hc]

theorem qkAux_accum : ∀ (k : List Char), (∀ c ∈ k, isWordChar c = true) →
    ∀ run t, qkAux run false (k ++ t) = qkAux (run ++ k) false t
  | [], _, run, t => by simp
  | c :: k, h, run, t => by
    rw [List.cons_append, qkAux_word _ _ _ (h c (by simp)),
      qkAux_accum k (fun x hx => h x (by simp [hx])) (run ++ [c]) t]
    simp

theorem qkAux_other (run rest : List Char) (c : Char)
    (hc : isWordChar c = false) (hcol : c ≠ ':') :
    qkAux run false (c :: rest) = run ++ c :: qkAux [] false rest := by
  simp [qkAux, hc, hcol]

theorem qkAux_colon_nilrun (rest : List Char) :
    qkAux [] false (':' :: rest) = ':' :: qkAux [] false rest := by
  simp [qkAux, show isWordChar ':' = false by decide]

theorem qkAux_colon (run rest : List Char) (hr : run ≠ []) :
    qkAux run false (':' :: rest) = qkAux run true rest := by
  simp [qkAux, show isWordChar ':' = false by decide, hr]

theorem qkAux_true_nil (run : List Char) : qkAux run true [] = run ++ [':'] := by
  simp [qkAux]

theorem qkAux_true_ws (run rest : List Char) (s : Char)
    (hs : isJsWsChar s = true) :
    qkAux run true (s :: rest) =
      '"' :: run ++ '"' :: ':' :: ' ' :: qkAux [] false rest := by
  simp [qkAux, hs]

theorem qkAux_true_word (run rest : List Char) (c : Char)
    (hws : isJsWsChar c = false) (hw : isWordChar c = true) :
    qkAux run true (c :: rest) = run ++ ':' :: qkAux [c] false rest := by
  simp [qkAux, hws, hw]

theorem qkAux_true_other (run rest : List Char) (c : Char)
    (hws : isJsWsChar c = false) (hw : isWordChar c = false) :
    qkAux run true (c :: rest) = run ++ ':' :: c :: qkAux [] false rest := by
  simp [qkAux, hws, hw]

theorem noKeyPat_cons (c : Char) (l : List Char)
    (h : noKeyPat (c :: l) = true) : noKeyPat l = true := by
  match l with
  | [] => rfl
  | [c2] => rfl
  | c2 :: c3 :: l3 =>
    simp only [noKeyPat, Bool.and_eq_true] at h
    exact h.2

theorem noKeyPat_append_right : ∀ a l : List Char,
    noKeyPat (a ++ l) = true → noKeyPat l = true
  | [], _, h => h
  | c :: a, l, h => noKeyPat_append_right a l (noKeyPat_cons c _ h)

theorem noKeyPat_extract (w s : Char) (t : List Char)
    (h : noKeyPat (w :: ':' :: s :: t) = true)
    (hw : isWordChar w = true) : isJsWsChar s = false := by
  simp only [noKeyPat, Bool.and_eq_true] at h
  have h1 := h.1
  simp [hw] at h1
  simpa using h1

/-- A maximal-run argument: scanning a segment `v` that contains no
`\w+:\s` pattern (also jointly with a pending all-word run and a closing
quote) copies it unchanged. -/
theorem qkAux_safe : ∀ (n : Nat) (v run rest : List Char), v.length ≤ n →
    (∀ c ∈ run, isWordChar c = true) →
    noKeyPat (run ++ v ++ ['"']) = true →
    qkAux run false (v ++ '"' :: rest) =
      run ++ v ++ qkAux [] false ('"' :: rest) := by
  intro n
  induction n with
  | zero =>
    intro v run rest hlen _ _
    have hv : v = [] := List.eq_nil_of_length_eq_zero (Nat.le_zero.mp hlen)
    subst hv
    rw [List.nil_append, qkAux_other run _ '"' (by decide) (by decide),
      qkAux_other [] _ '"' (by decide) (by decide)]
    simp
  | succ n ih =>
    intro v run rest hlen hrun hsafe
    rcases v with _ | ⟨c, v'⟩
    · rw [List.nil_append, qkAux_other run _ '"' (by decide) (by decide),
        qkAux_other [] _ '"' (by decide) (by decide)]
      simp
    · have hlen' : v'.length ≤ n := by simp at hlen; omega
      by_cases hw : isWordChar c = true
      · rw [List.cons_append, qkAux_word _ _ _ hw,
          ih v' (run ++ [c]) rest hlen'
            (by
              intro x hx
              rcases List.mem_append.mp hx with h | h
              · exact hrun x h
              · have : x = c := by simpa using h
                rw [this]; exact hw)
            (by simpa [List.append_assoc] using hsafe)]
        simp
      · have hwf : isWordChar c = false := by simpa using hw
        by_cases hcol : c = ':'
        · subst hcol
          by_cases hrun0 : run = []
          · subst hrun0
            rw [List.cons_append, qkAux_colon_nilrun,
              ih v' [] rest hlen' (by simp)
                (noKeyPat_cons ':' _ (by simpa using hsafe))]
            simp
          · rw [List.cons_append, qkAux_colon run _ hrun0]
            rcases v' with _ | ⟨s, v''⟩
            · simp only [List.nil_append]
              rw [qkAux_true_other run rest '"' (by decide) (by decide),
                qkAux_other [] rest '"' (by decide) (by decide)]
              simp
            · have hlen'' : v''.length ≤ n := by simp at hlen; omega
              have hsws : isJsWsChar s = false := by
                obtain ⟨r0, w, hr⟩ : ∃ r0 w, run = r0 ++ [w] :=
                  ⟨run.dropLast, run.getLast hrun0,
                    (List.dropLast_append_getLast hrun0).symm⟩
                have hw' : isWordChar w = true := hrun w (by rw [hr]; simp)
                have hnk : noKeyPat (w :: ':' :: s :: (v'' ++ ['"'])) = true := by
                  apply noKeyPat_append_right r0
                  rw [hr] at hsafe
                  simpa [List.append_assoc] using hsafe
                exact noKeyPat_extract w s _ hnk hw'
              by_cases hsw : isWordChar s = true
              · rw [List.cons_append, qkAux_true_word run _ s hsws hsw,
                  ih v'' [s] rest hlen''
                    (by
                      intro x hx
                      have : x = s := by simpa using hx
                      rw [this]; exact hsw)
                    (by
                      apply noKeyPat_append_right (run ++ [':'])
                      simpa [List.append_assoc] using hsafe)]
                simp
              · have hsw' : isWordChar s = false := by simpa using hsw
                rw [List.cons_append, qkAux_true_other run _ s hsws hsw',
                  ih v'' [] rest hlen'' (by simp)
                    (by
                      apply noKeyPat_append_right (run ++ ':' :: [s])
                      simpa [List.append_assoc] using hsafe)]
                simp
        · rw [List.cons_append, qkAux_other run _ c hwf hcol,
            ih v' [] rest hlen' (by simp)
              (by
                apply noKeyPat_append_right (run ++ [c])
                simpa [List.append_assoc] using hsafe)]
          simp

/-- Appending a non-whitespace character cannot create a `\w+:\s`
pattern. -/
theorem noKeyPat_snoc : ∀ (v : List Char) (q : Char), isJsWsChar q = false →
    noKeyPat v = true → noKeyPat (v ++ [q]) = true
  | [], q, _, _ => by simp [noKeyPat]
  | [c], q, _, _ => by simp [noKeyPat]
  | [c1, c2], q, hq, _ => by
    simp only [List.cons_append, List.nil_append, noKeyPat, hq,
      Bool.and_eq_true]
    simp
  | c1 :: c2 :: c3 :: v', q, hq, h => by
    simp only [noKeyPat, Bool.and_eq_true] at h
    have ih := noKeyPat_snoc (c2 :: c3 :: v') q hq h.2
    simp only [List.cons_append] at ih ⊢
    simp only [noKeyPat, Bool.and_eq_true]
    exact ⟨h.1, by simpa [List.cons_append] using ih⟩

/-- The scanner turns the member list of the pasted object shape into
the member list of the JSON object: all keys get quoted, all values are
copied unchanged. -/
theorem qkAux_members : ∀ ps : List (String × String),
    (∀ p ∈ ps, goodKey p.1 = true) → (∀ p ∈ ps, goodValue p.2 = true) →
    qkAux [] false (membersSrc ps ++ ['\x7d']) = membersJson ps ++ ['\x7d']
  | [], _, _ => by
    rw [show membersSrc [] = ([] : List Char) from rfl, List.nil_append,
      qkAux_other [] [] '\x7d' (by decide) (by decide)]
    rfl
  | (k, v) :: tail, hk, hv => by
    have hkey := hk (k, v) (by simp)
    have hval := hv (k, v) (by simp)
    simp only [goodKey, Bool.and_eq_true] at hkey
    simp only [goodValue, Bool.and_eq_true] at hval
    have hkne : k.data ≠ [] := by
      intro h
      have hk0 : k = "" := String.ext (by simp [h])
      have := hkey.1
      rw [hk0] at this
      simp at this
    have hkword : ∀ c ∈ k.data, isWordChar c = true := by
      intro c hc
      exact List.all_eq_true.mp hkey.2 c hc
    have hvq : noKeyPat (v.data ++ ['"']) = true :=
      noKeyPat_snoc v.data '"' (by decide) hval.1
    rcases tail with _ | ⟨p2, tail'⟩
    · simp only [membersSrc, membersJson, List.cons_append, List.append_assoc,
        List.nil_append]
      rw [qkAux_accum k.data hkword [] _, List.nil_append,
        qkAux_colon k.data _ hkne,
        qkAux_true_ws k.data _ ' ' (by decide),
        qkAux_other [] _ '"' (by decide) (by decide), List.nil_append,
        qkAux_safe v.data.length v.data [] _ le_rfl (by simp)
          (by simpa using hvq),
        qkAux_other [] _ '"' (by decide) (by decide), List.nil_append,
        qkAux_other [] [] '\x7d' (by decide) (by decide)]
      simp [qkAux]
    · simp only [membersSrc, membersJson, List.cons_append, List.append_assoc,
        List.nil_append]
      rw [qkAux_accum k.data hkword [] _, List.nil_append,
        qkAux_colon k.data _ hkne,
        qkAux_true_ws k.data _ ' ' (by decide),
        qkAux_other [] _ '"' (by decide) (by decide), List.nil_append,
        qkAux_safe v.data.length v.data [] _ le_rfl (by simp)
          (by simpa using hvq),
        qkAux_other [] _ '"' (by decide) (by decide), List.nil_append,
        qkAux_other [] _ ',' (by decide) (by decide), List.nil_append,
        qkAux_other [] _ ' ' (by decide) (by decide), List.nil_append,
        qkAux_members (p2 :: tail') (fun p hp => hk p (by simp [hp]))
          (fun p hp => hv p (by simp [hp]))]
      simp

/-- Removing the leftmost occurrence of `pat` from `pat ++ r` leaves
`r`. -/
theorem replaceFirstAux_leading : ∀ pat r : List Char,
    replaceFirstAux pat (pat ++ r) = r
  | [], [] => rfl
  | [], c :: rest => by simp [replaceFirstAux, List.isPrefixOf]
  | p :: pt, r => by
    have hpre := isPrefixOf_append_self (p :: pt) r
    simp only [List.cons_append] at hpre ⊢
    simp only [replaceFirstAux, hpre, if_true]
    simp only [List.length_cons, List.drop_succ_cons]
    exact List.drop_left pt r

/-- Dropping the trailing semicolon. -/
theorem stripSemiList_append (x : List Char) : stripSemiList (x ++ [';']) = x := by
  simp [stripSemiList, List.reverse_append]

/-- Trim drops a leading space. -/
theorem trimList_cons_ws (l : List Char) : trimList (' ' :: l) = trimList l := by
  simp [trimList, List.dropWhile, isJsWsChar]

/-- Trim leaves a braced document unchanged. -/
theorem trimList_brace (l : List Char) :
    trimList ('\x7b' :: (l ++ ['\x7d'])) = '\x7b' :: (l ++ ['\x7d']) := by
  simp only [trimList]
  rw [show List.dropWhile isJsWsChar ('\x7b' :: (l ++ ['\x7d']))
      = '\x7b' :: (l ++ ['\x7d']) from by simp [List.dropWhile, isJsWsChar]]
  rw [show ('\x7b' :: (l ++ ['\x7d'])).reverse
      = '\x7d' :: (l.reverse ++ ['\x7b']) from by simp]
  rw [show List.dropWhile isJsWsChar ('\x7d' :: (l.reverse ++ ['\x7b']))
      = '\x7d' :: (l.reverse ++ ['\x7b']) from by
    simp [List.dropWhile, isJsWsChar]]
  simp

/-- The transformation of lines 62–66 turns the pasted shape
`const firebaseConfig = {k1: "v1", …};` into the JSON document
`{"k1": "v1", …}`: declaration and terminator removed, every bare key
quoted, every value copied unchanged. -/
theorem transformConfig_render (ps : List (String × String))
    (hk : ∀ p ∈ ps, goodKey p.1 = true)
    (hv : ∀ p ∈ ps, goodValue p.2 = true) :
    transformConfigText (renderFirebaseConfig ps) = canonicalConfigJson ps := by
  unfold transformConfigText renderFirebaseConfig canonicalConfigJson
  rw [show (String.mk ("const firebaseConfig =".data ++
      ' ' :: '\x7b' :: membersSrc ps ++ ['\x7d', ';'])).data =
      "const firebaseConfig =".data ++
        (' ' :: '\x7b' :: membersSrc ps ++ ['\x7d', ';']) from rfl]
  rw [replaceFirstAux_leading]
  rw [show ' ' :: '\x7b' :: membersSrc ps ++ ['\x7d', ';'] =
      (' ' :: '\x7b' :: membersSrc ps ++ ['\x7d']) ++ [';'] from by simp]
  rw [stripSemiList_append]
  rw [show ∀ l, quoteKeys l = qkAux [] false l from fun l => rfl]
  simp only [List.cons_append]
  rw [qkAux_other [] _ ' ' (by decide) (by decide), List.nil_append,
    qkAux_other [] _ '\x7b' (by decide) (by decide), List.nil_append,
    qkAux_members ps hk hv]
  rw [trimList_cons_ws, trimList_brace]

/-- Word characters are legal JSON string characters. -/
theorem word_good (c : Char) (h : isWordChar c = true) : goodStrChar c = true := by
  simp only [isWordChar, Bool.or_eq_true, Bool.and_eq_true,
    decide_eq_true_eq] at h
  simp only [goodStrChar, Bool.and_eq_true, decide_eq_true_eq]
  rcases h with ((⟨h1, h2⟩ | ⟨h1, h2⟩) | ⟨h1, h2⟩) | h1
  · exact ⟨⟨fun he => by subst he; exact absurd h1 (by decide),
      fun he => by subst he; exact absurd h1 (by decide)⟩,
      le_trans (by decide) h1⟩
  · exact ⟨⟨fun he => by subst he; exact absurd h1 (by decide),
      fun he => by subst he; exact absurd h2 (by decide)⟩,
      le_trans (by decide) h1⟩
  · exact ⟨⟨fun he => by subst he; exact absurd h1 (by decide),
      fun he => by subst he; exact absurd h2 (by decide)⟩,
      le_trans (by decide) h1⟩
  · subst h1; decide

/-- A run of legal string characters keeps the scanner in a string
state whose transition fixes such characters. -/
theorem flatScan_strRun (st : FlatSt)
    (hstep : ∀ c, goodStrChar c = true → flatStep st c = st) :
    ∀ (k : List Char), (∀ c ∈ k, goodStrChar c = true) →
    ∀ rest, flatScan st (k ++ rest) = flatScan st rest
  | [], _, rest => rfl
  | c :: k, h, rest => by
    rw [List.cons_append,
      show flatScan st (c :: (k ++ rest)) =
        flatScan (flatStep st c) (k ++ rest) from rfl,
      hstep c (h c (by simp)),
      flatScan_strRun st hstep k (fun x hx => h x (by simp [hx])) rest]

theorem flatStep_inKey_good (c : Char) (hc : goodStrChar c = true) :
    flatStep .inKey c = .inKey := by
  have h1 : c ≠ '"' := by
    simp only [goodStrChar, Bool.and_eq_true, decide_eq_true_eq] at hc
    exact hc.1.1
  simp [flatStep, h1, hc]

theorem flatStep_inVal_good (c : Char) (hc : goodStrChar c = true) :
    flatStep .inVal c = .inVal := by
  have h1 : c ≠ '"' := by
    simp only [goodStrChar, Bool.and_eq_true, decide_eq_true_eq] at hc
    exact hc.1.1
  simp [flatStep, h1, hc]

/-- The canonical member list is accepted by the flat-object scanner,
entered either right after `{` or right after `", "`. -/
theorem flatScan_membersJson : ∀ ps : List (String × String),
    (∀ p ∈ ps, goodKey p.1 = true) → (∀ p ∈ ps, goodValue p.2 = true) →
    flatScan .afterBrace (membersJson ps ++ ['\x7d']) = true ∧
    (ps ≠ [] → flatScan .expectKeyQuote (membersJson ps ++ ['\x7d']) = true)
  | [], _, _ => ⟨rfl, fun h => absurd rfl h⟩
  | [(k, v)], hk, hv => by
    have hkey := hk (k, v) (by simp)
    have hval := hv (k, v) (by simp)
    simp only [goodKey, goodValue, Bool.and_eq_true] at hkey hval
    have hkg : ∀ c ∈ k.data, goodStrChar c = true := fun c hc =>
      word_good c (List.all_eq_true.mp hkey.2 c hc)
    have hvg : ∀ c ∈ v.data, goodStrChar c = true := fun c hc =>
      List.all_eq_true.mp hval.2 c hc
    simp only [membersJson, List.cons_append, List.append_assoc,
      List.nil_append]
    constructor
    · rw [show flatScan .afterBrace ('"' ::
          (k.data ++ '"' :: ':' :: ' ' :: '"' :: (v.data ++ '"' :: ['\x7d']))) =
          flatScan .inKey
            (k.data ++ '"' :: ':' :: ' ' :: '"' :: (v.data ++ '"' :: ['\x7d']))
          from rfl,
        flatScan_strRun .inKey flatStep_inKey_good k.data hkg _,
        show flatScan .inKey
            ('"' :: ':' :: ' ' :: '"' :: (v.data ++ '"' :: ['\x7d'])) =
          flatScan .inVal (v.data ++ '"' :: ['\x7d']) from rfl,
        flatScan_strRun .inVal flatStep_inVal_good v.data hvg _]
      rfl
    · intro _
      rw [show flatScan .expectKeyQuote ('"' ::
          (k.data ++ '"' :: ':' :: ' ' :: '"' :: (v.data ++ '"' :: ['\x7d']))) =
          flatScan .inKey
            (k.data ++ '"' :: ':' :: ' ' :: '"' :: (v.data ++ '"' :: ['\x7d']))
          from rfl,
        flatScan_strRun .inKey flatStep_inKey_good k.data hkg _,
        show flatScan .inKey
            ('"' :: ':' :: ' ' :: '"' :: (v.data ++ '"' :: ['\x7d'])) =
          flatScan .inVal (v.data ++ '"' :: ['\x7d']) from rfl,
        flatScan_strRun .inVal flatStep_inVal_good v.data hvg _]
      rfl
  | (k, v) :: p2 :: tail, hk, hv => by
    have hkey := hk (k, v) (by simp)
    have hval := hv (k, v) (by simp)
    simp only [goodKey, goodValue, Bool.and_eq_true] at hkey hval
    have hkg : ∀ c ∈ k.data, goodStrChar c = true := fun c hc =>
      word_good c (List.all_eq_true.mp hkey.2 c hc)
    have hvg : ∀ c ∈ v.data, goodStrChar c = true := fun c hc =>
      List.all_eq_true.mp hval.2 c hc
    have ih := flatScan_membersJson (p2 :: tail)
      (fun p hp => hk p (by simp [hp])) (fun p hp => hv p (by simp [hp]))
    have ih2 := ih.2 (by simp)
    simp only [membersJson, List.cons_append, List.append_assoc,
      List.nil_append] at ih2 ⊢
    constructor
    · rw [show flatScan .afterBrace ('"' :: (k.data ++ '"' :: ':' :: ' ' ::
          '"' :: (v.data ++ '"' :: ',' :: ' ' ::
            (membersJson (p2 :: tail) ++ ['\x7d'])))) =
          flatScan .inKey (k.data ++ '"' :: ':' :: ' ' :: '"' ::
            (v.data ++ '"' :: ',' :: ' ' ::
              (membersJson (p2 :: tail) ++ ['\x7d']))) from rfl,
        flatScan_strRun .inKey flatStep_inKey_good k.data hkg _,
        show flatScan .inKey ('"' :: ':' :: ' ' :: '"' ::
            (v.data ++ '"' :: ',' :: ' ' ::
              (membersJson (p2 :: tail) ++ ['\x7d']))) =
          flatScan .inVal (v.data ++ '"' :: ',' :: ' ' ::
            (membersJson (p2 :: tail) ++ ['\x7d'])) from rfl,
        flatScan_strRun .inVal flatStep_inVal_good v.data hvg _,
        show flatScan .inVal ('"' :: ',' :: ' ' ::
            (membersJson (p2 :: tail) ++ ['\x7d'])) =
          flatScan .expectKeyQuote (membersJson (p2 :: tail) ++ ['\x7d'])
          from rfl]
      exact ih2
    · intro _
      rw [show flatScan .expectKeyQuote ('"' :: (k.data ++ '"' :: ':' :: ' ' ::
          '"' :: (v.data ++ '"' :: ',' :: ' ' ::
            (membersJson (p2 :: tail) ++ ['\x7d'])))) =
          flatScan .inKey (k.data ++ '"' :: ':' :: ' ' :: '"' ::
            (v.data ++ '"' :: ',' :: ' ' ::
              (membersJson (p2 :: tail) ++ ['\x7d']))) from rfl,
        flatScan_strRun .inKey flatStep_inKey_good k.data hkg _,
        show flatScan .inKey ('"' :: ':' :: ' ' :: '"' ::
            (v.data ++ '"' :: ',' :: ' ' ::
              (membersJson (p2 :: tail) ++ ['\x7d']))) =
          flatScan .inVal (v.data ++ '"' :: ',' :: ' ' ::
            (membersJson (p2 :: tail) ++ ['\x7d'])) from rfl,
        flatScan_strRun .inVal flatStep_inVal_good v.data hvg _,
        show flatScan .inVal ('"' :: ',' :: ' ' ::
            (membersJson (p2 :: tail) ++ ['\x7d'])) =
          flatScan .expectKeyQuote (membersJson (p2 :: tail) ++ ['\x7d'])
          from rfl]
      exact ih2

/-- **C3 (amended).**  For pasted text of the shape
`const firebaseConfig = {k1: "v1", …};` with bare keys made of word
characters and string values that contain no double quote, no
backslash, no control character, and no word-run–colon–whitespace
(`\w+:\s`) sequence, the transformation of lines 62–66 produces exactly
the JSON document `{"k1": "v1", …}`: every bare key quoted, the leading
declaration and the trailing `;` removed — and that document is a valid
flat JSON object. -/
theorem claim_C3 (ps : List (String × String))
    (hk : ∀ p ∈ ps, goodKey p.1 = true)
    (hv : ∀ p ∈ ps, goodValue p.2 = true) :
    transformConfigText (renderFirebaseConfig ps) = canonicalConfigJson ps ∧
    flatObjOk (canonicalConfigJson ps) = true := by
  refine ⟨transformConfig_render ps hk hv, ?_⟩
  unfold flatObjOk canonicalConfigJson
  rw [show (String.mk (('\x7b' :: membersJson ps) ++ ['\x7d'])).data =
    '\x7b' :: (membersJson ps ++ ['\x7d']) from by simp]
  rw [show flatScan .start ('\x7b' :: (membersJson ps ++ ['\x7d'])) =
    flatScan .afterBrace (membersJson ps ++ ['\x7d']) from rfl]
  exact (flatScan_membersJson ps hk hv).1

/-- Concrete instance of the amended C3: two keys, plain values. -/
theorem claim_C3_witness :
    transformConfigText
        (renderFirebaseConfig [("apiKey", "x"), ("authDomain", "y")]) =
      canonicalConfigJson [("apiKey", "x"), ("authDomain", "y")] ∧
    flatObjOk (canonicalConfigJson [("apiKey", "x"), ("authDomain", "y")]) =
      true :=
  claim_C3 [("apiKey", "x"), ("authDomain", "y")] (by decide) (by decide)

/-- **C3 (counterexample).**  The pasted text
`const firebaseConfig = {k: "v: w"};` is of the claimed shape — a flat
object literal with the bare key `k` and the string value `"v: w"` —
yet the transformation's key-quoting regex also fires *inside* the
string value, producing `{"k": ""v": w"}`, which is not valid JSON, so
C3 as stated (every such paste transforms to parseable JSON) is
false. -/
theorem claim_C3_counterexample :
    renderFirebaseConfig [("k", "v: w")] =
      "const firebaseConfig = \x7bk: \"v: w\"\x7d;" ∧
    transformConfigText "const firebaseConfig = \x7bk: \"v: w\"\x7d;" =
      "\x7b\"k\": \"\"v\": w\"\x7d" ∧
    jsonValid "\x7b\"k\": \"\"v\": w\"\x7d" = false :=
  ⟨rfl, rfl, by decide⟩

end Permagen
